import Mathlib

/-!
# AtomicBot-WhatsApp-Web: the appointment conversation state machine

A shallow embedding of `src/app.go` (session store, `ProcessMessage` and the
three flows) and of `src/gemini.go` (`Chat`, `AnalyzeForAppointment`,
`fallbackAnalysis`), followed by the properties proved about them.

Conventions of the embedding.

* A Go `string` is a Lean `String`; positions in a string are counted in characters, which
  orders them as the byte offsets of Go do.
* A Go `map[string]string` is a duplicate-free association list (`GoMap`); the
  order of the list is the order in which a `range` loop visits it, so a
  statement quantified over every `GoMap` covers every iteration order.
* A `*UserState` held in `userStates` is modelled by value: a flow returns the
  updated record and `ProcessMessage` stores it back under the user ID.
* Whatever the program reads from outside (the clock, the Gemini model, the JSON
  decoder, the helpers of the repository that live outside `app.go` and
  `gemini.go`) is a field of `Env`; one `Env` describes the outside world during
  one call of `ProcessMessage`.
* A Go run-time panic is the result `none`. Log output is left out.
-/

namespace AtomicBot

/-! ## Go maps from string to string -/

/-- A Go `map[string]string`: its entries, no key occurring twice. -/
structure GoMap where
  entries : List (String × String)
  nodup : (entries.map Prod.fst).Nodup

/-- Assignment `m[key] = value` on the entry list: replace the entry of `key`
when there is one, add a new entry otherwise. -/
def setEntries : List (String × String) → String → String → List (String × String)
  | [], key, value => [(key, value)]
  | (k, v) :: rest, key, value =>
    if k = key then (k, value) :: rest else (k, v) :: setEntries rest key value

namespace GoMap

/-- The map built by `make(map[string]string)`. -/
def empty : GoMap := ⟨[], List.nodup_nil⟩

/-- Indexing `m[key]`: the stored value, the zero value `""` for an absent key. -/
def get (m : GoMap) (key : String) : String :=
  match m.entries.lookup key with
  | some v => v
  | none => ""

/-- The keys of the map. -/
def keys (m : GoMap) : List String := m.entries.map Prod.fst

/-- Assignment `m[key] = value`. -/
def set (m : GoMap) (key value : String) : GoMap :=
  ⟨setEntries m.entries key value, by
    have h : ∀ l : List (String × String),
        (setEntries l key value).map Prod.fst
          = if key ∈ l.map Prod.fst then l.map Prod.fst else l.map Prod.fst ++ [key] := by
      intro l
      induction l with
      | nil => simp [setEntries]
      | cons p rest ih =>
        obtain ⟨k, v⟩ := p
        by_cases hk : k = key
        · simp [setEntries, hk]
        · have hk2 : ¬ key = k := fun e => hk e.symm
          by_cases hm : key ∈ rest.map Prod.fst
          · simp only [setEntries, hk, if_false, List.map_cons, ih, hm, if_true,
              List.mem_cons, or_true]
          · simp only [setEntries, hk, if_false, List.map_cons, ih, hm,
              List.mem_cons, hk2, or_self, List.cons_append]
    rw [h]
    split
    · exact m.nodup
    · rename_i hm
      exact List.Nodup.append m.nodup (List.nodup_singleton key)
        (by simpa [List.disjoint_singleton] using hm)⟩

end GoMap

/-! ## Formatting and string helpers of the Go library -/

/-- Byte-wise string order of Go, on the characters of valid UTF-8 strings. -/
def ltChars : List Char → List Char → Bool
  | [], [] => false
  | [], _ :: _ => true
  | _ :: _, [] => false
  | a :: as, b :: bs =>
    if a.toNat < b.toNat then true
    else if b.toNat < a.toNat then false
    else ltChars as bs

/-- Insertion of an entry into a list of entries sorted by key. -/
def insertSorted (p : String × String) : List (String × String) → List (String × String)
  | [] => [p]
  | q :: rest =>
    if ltChars q.1.data p.1.data then q :: insertSorted p rest else p :: q :: rest

/-- The verb `%v` of `fmt` on a `map[string]string`: `map[k1:v1 k2:v2]`, keys sorted. -/
def fmtMap (m : GoMap) : String :=
  "map[" ++ " ".intercalate ((m.entries.foldr insertSorted []).map fun kv => kv.1 ++ ":" ++ kv.2)
    ++ "]"

/-- The verb `%v` of `fmt` on a `bool`. -/
def fmtBool (b : Bool) : String := if b then "true" else "false"

/-- Whether `pre` is a prefix of `l`. -/
def hasPrefixChars : List Char → List Char → Bool
  | [], _ => true
  | _ :: _, [] => false
  | a :: as, b :: bs => a = b && hasPrefixChars as bs

/-- Whether `sub` occurs in `l` as a contiguous run. -/
def containsChars (sub : List Char) : List Char → Bool
  | [] => hasPrefixChars sub []
  | c :: cs => hasPrefixChars sub (c :: cs) || containsChars sub cs

/-- Go `strings.Contains`. -/
def strings_Contains (s substr : String) : Bool := containsChars substr.data s.data

/-- Position of the first occurrence of the character `c`; `none` is Go's `-1`. -/
def indexChar (c : Char) : List Char → Option Nat
  | [] => none
  | d :: ds => if d = c then some 0 else (indexChar c ds).map (· + 1)

/-- Position of the last occurrence of the character `c`; `none` is Go's `-1`. -/
def lastIndexChar (c : Char) : List Char → Option Nat
  | [] => none
  | d :: ds =>
    match lastIndexChar c ds with
    | some i => some (i + 1)
    | none => if d = c then some 0 else none

/-- Subtraction of two `int64` values, wrapping as Go does. -/
def sub64 (a b : Int) : Int := (a - b + 2 ^ 63) % 2 ^ 64 - 2 ^ 63

/-- System prompt constant of config.go, sent in front of every Chat request. -/
def SYSTEM_PROMPT : String :=
  "Eres un asistente virtual especializado para una BARBERÍA moderna. Tus características son:\n" ++
  "\n" ++
  "PERSONALIDAD Y ESTILO:\n" ++
  "- Profesional, amigable y moderno\n" ++
  "- Respuestas CORTAS Y DIRECTAS (máximo 2-3 líneas)\n" ++
  "- NUNCA repitas saludos si ya saludaste\n" ++
  "- NUNCA pidas datos que ya fueron proporcionados\n" ++
  "- Usa emojis ocasionalmente (✂️💈😊)\n" ++
  "\n" ++
  "SERVICIOS Y PRECIOS:\n" ++
  "\n" ++
  "**SERVICIOS INDIVIDUALES:**\n" ++
  "• Afeitado Tradicional - $270 (Con toallas calientes, máquina y navaja, masaje relajante)\n" ++
  "• Afeitado Express - $270 (Rebajada con máquina y tierra, limpieza con navaja)\n" ++
  "• Corte Tradicional - $300 (Cualquier tipo de corte a tu gusto)\n" ++
  "• Arreglo de Barba - $220 (Limpieza con navaja o tijera del contorno)\n" ++
  "• Mascarillas - $250 (Negra o de barro)\n" ++
  "\n" ++
  "**COMBOS:**\n" ++
  "• Corte + Afeitado Express - $450\n" ++
  "• Corte + Afeitado Tradicional + Mascarilla - $700\n" ++
  "• Corte + Arreglo - $420\n" ++
  "• Corte + Afeitado Tradicional - $500\n" ++
  "\n" ++
  "**PROMOCIONES:**\n" ++
  "• Martes Estudiantes - $250 (Con credencial vigente)\n" ++
  "• Miércoles 2x1 - $350 (Corte+Barba, Corte+Mascarilla, o Barba+Mascarilla)\n" ++
  "• Corte Mujeres - $250 (Todos los días)\n" ++
  "\n" ++
  "**EXTRAS:**\n" ++
  "• Estacionamiento exclusivo disponible\n" ++
  "\n" ++
  "BARBEROS:\n" ++
  "• Brandon: 9 AM-1 PM y 3 PM-6 PM (break 1-3 PM)\n" ++
  "• Otros barberos disponibles\n" ++
  "\n" ++
  "PROCESO DE AGENDAMIENTO:\n" ++
  "Recopila EN ORDEN:\n" ++
  "1. Nombre completo\n" ++
  "2. Servicio deseado\n" ++
  "3. Barbero preferido (si no tiene preferencia, asigna uno disponible)\n" ++
  "4. Fecha\n" ++
  "5. Hora\n" ++
  "\n" ++
  "REGLAS CRÍTICAS:\n" ++
  "- NUNCA pidas teléfono (se obtiene automáticamente)\n" ++
  "- Si ya preguntaste algo, NO lo vuelvas a preguntar\n" ++
  "- Responde SOLO lo que se te pide en el contexto\n" ++
  "- NO agregues saludos innecesarios\n" ++
  "- Sé DIRECTO y BREVE"

/-- Analysis prompt constant of config.go, sent in front of every analysis request. -/
def APPOINTMENT_ANALYSIS_PROMPT : String :=
  "Analiza este mensaje y extrae información de agendamiento de barbería.\n" ++
  "\n" ++
  "PALABRAS CLAVE DE AGENDAMIENTO:\n" ++
  "- agendar, cita, turno, reservar\n" ++
  "- corte, afeitado, barba, mascarilla\n" ++
  "- cuando, horario, disponible\n" ++
  "\n" ++
  "SERVICIOS VÁLIDOS:\n" ++
  "Afeitado Tradicional, Afeitado Express, Corte Tradicional, Arreglo de Barba, Mascarillas, Combos\n" ++
  "\n" ++
  "BARBEROS:\n" ++
  "Brandon, otros\n" ++
  "\n" ++
  "EXTRAE SOLO LO QUE ESTÁ EN EL MENSAJE:\n" ++
  "- nombre (completo)\n" ++
  "- servicio\n" ++
  "- barbero (si lo menciona)\n" ++
  "- fecha (DD/MM/YYYY o \"mañana\", \"lunes\", etc.)\n" ++
  "- hora (HH:MM o \"mañana\", \"tarde\")\n" ++
  "\n" ++
  "NO extraigas teléfonos.\n" ++
  "\n" ++
  "RESPONDE EN JSON:\n" ++
  "\x7b\n" ++
  "    \"wantsToSchedule\": true/false,\n" ++
  "    \"extractedData\": \x7b\n" ++
  "        \"nombre\": \"nombre o null\",\n" ++
  "        \"servicio\": \"servicio o null\",\n" ++
  "        \"barbero\": \"barbero o null\",\n" ++
  "        \"fecha\": \"fecha o null\",\n" ++
  "        \"hora\": \"hora o null\"\n" ++
  "    \x7d,\n" ++
  "    \"confidence\": 0.0-1.0\n" ++
  "\x7d"

/-! ## Data model (`app.go`, `gemini.go`) -/

/-- State of one user, the struct `UserState`. -/
structure UserState where
  IsScheduling : Bool
  Step : Int
  Data : GoMap
  ConversationHistory : List String
  LastMessageTime : Int
  AppointmentSaved : Bool

/-- The global `userStates`: the session of each user ID that has one. -/
abbrev Store := String → Option UserState

/-- Result of the analysis, the struct `AppointmentAnalysis`; `ExtractedData = none`
is the nil map. `Confidence`, a `float64` that the program only logs, is carried as the
decimal number written in the source or in the JSON answer. -/
structure AppointmentAnalysis where
  WantsToSchedule : Bool
  ExtractedData : Option GoMap
  Confidence : ℚ

/-- The calendar event returned by `CreateCalendarEvent`, of which the link is read. -/
structure CalendarEvent where
  HtmlLink : String

/-- Outcome of one `geminiModel.GenerateContent` call. -/
inductive GenerateContentResult where
  /-- The call returned an error. -/
  | failed (err : String)
  /-- The response is nil or has no candidate. -/
  | noCandidates
  /-- The response has candidates; `text` is the concatenation of their parts. -/
  | parts (text : String)

/-- The initialised Gemini client and model. -/
structure GeminiClient where
  GenerateContent : String → GenerateContentResult

/-- The outside world during one call of `ProcessMessage`. -/
structure Env where
  /-- Reading of `time.Now().Unix()` when `GetUserState` creates the session (line 42). -/
  nowCreate : Int
  /-- Reading of `time.Now().Unix()` at line 105. -/
  nowStamp : Int
  /-- Reading of `time.Now().Unix()` at line 114. -/
  nowGuard : Int
  /-- Reading of `time.Now().Unix()` when the session is created again (line 128). -/
  nowReset : Int
  /-- The global `geminiClient`, `none` when it is nil. -/
  geminiClient : Option GeminiClient
  /-- Go `strings.ToLower`. -/
  ToLower : String → String
  /-- Go `json.Unmarshal` into a zero `AppointmentAnalysis`; `none` when it returns an error. -/
  Unmarshal : String → Option AppointmentAnalysis
  /-- The value of `result` at line 112 of `gemini.go`, from the concatenated parts and the
  history: trimming, removal of a repeated greeting and truncation to 450 bytes. -/
  tidyAnswer : String → String → String
  /-- The helper `ContainsKeywords`. -/
  ContainsKeywords : String → List String → Bool
  /-- The helper `IsGreeting`. -/
  IsGreeting : String → Bool
  /-- The helper `ConvertirFechaADia`: day name, exact date, error. -/
  ConvertirFechaADia : String → String × String × Option String
  /-- The helper `NormalizarHora`: normalised time, error. -/
  NormalizarHora : String → String × Option String
  /-- The helper `SaveAppointmentToCalendar` (spreadsheet append): error. -/
  SaveAppointmentToCalendar : GoMap → Option String
  /-- The helper `CreateCalendarEvent`: event, error. -/
  CreateCalendarEvent : GoMap → Option CalendarEvent × Option String

/-! ## Session store (`app.go`, lines 28-55) -/

/-- Store in which the session of `userID` is `state`: the effect of writing through the
pointer that `GetUserState` returned. -/
def setUserState (userStates : Store) (userID : String) (state : UserState) : Store :=
  fun k => if k = userID then some state else userStates k

/-- The function `GetUserState`: the session of `userID`, created when there is none. `now` is
the reading of the clock used for a new session. -/
def GetUserState (userStates : Store) (userID : String) (now : Int) : UserState × Store :=
  match userStates userID with
  | some state => (state, userStates)
  | none =>
    let state : UserState :=
      { IsScheduling := false
        Step := 0
        Data := GoMap.empty
        ConversationHistory := []
        LastMessageTime := now
        AppointmentSaved := false }
    (state, setUserState userStates userID state)

/-- The function `ClearUserState`: `delete(userStates, userID)`. -/
def ClearUserState (userStates : Store) (userID : String) : Store :=
  fun k => if k = userID then none else userStates k

/-! ## Gemini (`gemini.go`) -/

/-- The function `Chat`: the reply and the error (`none` is nil). -/
def Chat (env : Env) (promptContext userMessage conversationHistory : String) :
    String × Option String :=
  match env.geminiClient with
  | none => ("", some "Gemini no inicializado")
  | some client =>
    let fullPrompt := SYSTEM_PROMPT ++ "\n\nHISTORIAL:\n" ++ conversationHistory
      ++ "\n\nCONTEXTO: " ++ promptContext ++ "\n\nMENSAJE: " ++ userMessage
      ++ "\n\nRESPUESTA (MÁXIMO 2 LÍNEAS):"
    match client.GenerateContent fullPrompt with
    | .failed err => ("", some ("error generando respuesta: " ++ err))
    | .noCandidates => ("¿Podrías repetir eso?", none)
    | .parts answer =>
      let result := env.tidyAnswer answer conversationHistory
      if result = "" then ("¿Podrías repetir eso?", none) else (result, none)

/-- The function `fallbackAnalysis`: keyword analysis used without Gemini. -/
def fallbackAnalysis (env : Env) (message : String) : AppointmentAnalysis :=
  let lowerMessage := env.ToLower message
  let keywords := ["cita", "agendar", "turno", "reservar", "corte", "afeitado", "barba"]
  let wantsToSchedule :=
    keywords.foldl
      (fun found keyword => if found then true else strings_Contains lowerMessage keyword)
      false
  { WantsToSchedule := wantsToSchedule
    ExtractedData := some GoMap.empty
    Confidence := 0.6 }

/-- The function `AnalyzeForAppointment`: the analysis (a pointer, `none` when nil) and the
error (`none` when nil). The whole result is `none` when the slice expression of line 167
panics, which it does when the last closing brace comes more than one place before the first
opening brace. -/
def AnalyzeForAppointment (env : Env) (message conversationHistory : String)
    (isCurrentlyScheduling : Bool) : Option (Option AppointmentAnalysis × Option String) :=
  match env.geminiClient with
  | none => some (some (fallbackAnalysis env message), none)
  | some client =>
    let analysisPrompt := APPOINTMENT_ANALYSIS_PROMPT ++ "\n\nHISTORIAL:\n"
      ++ conversationHistory ++ "\n\nMENSAJE: \"" ++ message
      ++ "\"\n\n¿YA ESTÁ AGENDANDO?: " ++ fmtBool isCurrentlyScheduling
    match client.GenerateContent analysisPrompt with
    | .failed _ => some (some (fallbackAnalysis env message), none)
    | .noCandidates => some (some (fallbackAnalysis env message), none)
    | .parts responseText =>
      match indexChar '{' responseText.data, lastIndexChar '}' responseText.data with
      | some jsonStart, some jsonEnd =>
        if jsonEnd + 1 < jsonStart then none
        else
          let jsonStr :=
            String.mk ((responseText.data.drop jsonStart).take (jsonEnd + 1 - jsonStart))
          match env.Unmarshal jsonStr with
          | none => some (some (fallbackAnalysis env message), none)
          | some analysis =>
            let analysis :=
              match analysis.ExtractedData with
              | none => { analysis with ExtractedData := some GoMap.empty }
              | some _ => analysis
            some (some analysis, none)
      | _, _ => some (some (fallbackAnalysis env message), none)

/-! ## Dialogue engine (`app.go`, lines 102-350) -/

/-- The function `joinHistory`. -/
def joinHistory (history : List String) : String :=
  history.foldl (fun result msg => result ++ (msg ++ "\n")) ""

/-- The function `getMissingData`. -/
def getMissingData (data : GoMap) : List String :=
  let required := ["nombre", "servicio", "barbero", "fecha", "hora"]
  required.foldl
    (fun missing field => if data.get field = "" then missing ++ [field] else missing) []

/-- The function `saveAppointment`: the confirmation and the session, now saved. -/
def saveAppointment (env : Env) (state : UserState) (userID _userName : String) :
    String × UserState :=
  let state := { state with AppointmentSaved := true }
  let telefono := userID
  let fechaExacta :=
    match env.ConvertirFechaADia (state.Data.get "fecha") with
    | (_, _, some _) => state.Data.get "fecha"
    | (_, fechaExacta, none) => fechaExacta
  let horaNormalizada :=
    match env.NormalizarHora (state.Data.get "hora") with
    | (_, some _) => state.Data.get "hora"
    | (horaNormalizada, none) => horaNormalizada
  let appointmentData :=
    ((((((GoMap.empty.set "nombre" (state.Data.get "nombre")).set "telefono" telefono).set
      "servicio" (state.Data.get "servicio")).set "barbero" (state.Data.get "barbero")).set
      "fecha" (state.Data.get "fecha")).set "fechaExacta" fechaExacta).set "hora" horaNormalizada
  let _sheetsErr := env.SaveAppointmentToCalendar appointmentData
  let calendarEvent := (env.CreateCalendarEvent appointmentData).1
  let confirmation := "¡Perfecto! 🎉 Tu cita ha sido agendada exitosamente.\n\n"
  let confirmation := confirmation ++ "📋 Resumen de tu cita:\n\n"
  let confirmation := confirmation ++ ("👤 Nombre: " ++ state.Data.get "nombre" ++ "\n")
  let confirmation := confirmation ++ ("✂️ Servicio: " ++ state.Data.get "servicio" ++ "\n")
  let confirmation := confirmation ++ ("💈 Barbero: " ++ state.Data.get "barbero" ++ "\n")
  let confirmation := confirmation ++ ("📅 Fecha: " ++ fechaExacta ++ "\n")
  let confirmation := confirmation ++ ("⏰ Hora: " ++ horaNormalizada ++ "\n\n")
  let confirmation :=
    match calendarEvent with
    | some event => confirmation ++ ("🔗 Evento en Calendar: " ++ event.HtmlLink ++ "\n\n")
    | none => confirmation
  let confirmation := confirmation
    ++ "Te esperamos en la fecha y hora acordada. ¡Gracias por confiar en nosotros! 😊"
  (confirmation, state)

/-- The function `handleNormalConversation`. -/
def handleNormalConversation (env : Env) (message userName : String) (state : UserState) :
    String × UserState :=
  let promptContext := "Responde de manera amigable. Si el usuario pregunta sobre servicios, precios o promociones, proporciona la información detallada."
  match Chat env promptContext message (joinHistory state.ConversationHistory) with
  | (_, some _) =>
    if env.IsGreeting message then
      ("¡Hola " ++ userName ++ "! ✂️ Soy el asistente virtual de la Barbería.\n\n"
        ++ "Puedo ayudarte a:\n"
        ++ "📅 Agendar tu cita\n"
        ++ "💰 Consultar servicios y precios\n"
        ++ "🎁 Ver promociones\n\n"
        ++ "¿En qué puedo asistirte hoy?", state)
    else ("Lo siento, no entendí tu mensaje. ¿Puedes repetirlo?", state)
  | (response, none) =>
    (response,
      { state with ConversationHistory := state.ConversationHistory ++ ["Asistente: " ++ response] })

/-- The loop of `startAppointmentFlow` (lines 178-183) over the entries of the extracted data. -/
def mergeInitial (data : GoMap) (extracted : GoMap) : GoMap :=
  extracted.entries.foldl
    (fun data kv => if kv.2 ≠ "" ∧ kv.2 ≠ "null" then data.set kv.1 kv.2 else data) data

/-- The loop of `continueAppointmentFlow` (lines 215-220) over the entries of the extracted
data. -/
def mergeContinue (data : GoMap) (extracted : GoMap) : GoMap :=
  extracted.entries.foldl
    (fun data kv =>
      if kv.2 ≠ "" ∧ kv.2 ≠ "null" ∧ data.get kv.1 = "" then data.set kv.1 kv.2 else data) data

/-- The function `startAppointmentFlow`. -/
def startAppointmentFlow (env : Env) (state : UserState) (analysis : AppointmentAnalysis)
    (message _userName : String) : String × UserState :=
  let state := { state with IsScheduling := true, Step := 1 }
  let state :=
    match analysis.ExtractedData with
    | some extracted => { state with Data := mergeInitial state.Data extracted }
    | none => state
  let missingData := getMissingData state.Data
  let promptContext :=
    match missingData with
    | first :: _ =>
      "Pide el siguiente dato: " ++ first ++ ". Datos ya recopilados: " ++ fmtMap state.Data
        ++ ". NO pidas teléfono. Sé breve."
    | [] => "Confirma todos los datos antes de guardar: " ++ fmtMap state.Data
  match Chat env promptContext message (joinHistory state.ConversationHistory) with
  | (_, some _) =>
    ("¡Perfecto! Vamos a agendar tu cita. Por favor, dime tu nombre completo:", state)
  | (response, none) =>
    (response,
      { state with ConversationHistory := state.ConversationHistory ++ ["Asistente: " ++ response] })

/-- The function `continueAppointmentFlow`. -/
def continueAppointmentFlow (env : Env) (state : UserState) (analysis : AppointmentAnalysis)
    (message userID userName : String) : String × UserState :=
  let state :=
    match analysis.ExtractedData with
    | some extracted => { state with Data := mergeContinue state.Data extracted }
    | none => state
  let missingData := getMissingData state.Data
  match missingData with
  | first :: _ =>
    let promptContext := "Pide ÚNICAMENTE el siguiente dato: " ++ first
      ++ ". Datos ya recopilados: " ++ fmtMap state.Data
      ++ ". NO repitas preguntas. NO pidas teléfono. Sé breve."
    match Chat env promptContext message (joinHistory state.ConversationHistory) with
    | (_, some _) => ("Por favor, dime tu " ++ first ++ ":", state)
    | (response, none) =>
      (response,
        { state with
          ConversationHistory := state.ConversationHistory ++ ["Asistente: " ++ response] })
  | [] => saveAppointment env state userID userName

/-- The function `processNewMessage`; `none` when the analysis panics. -/
def processNewMessage (env : Env) (message _userID userName : String) (state : UserState) :
    Option (String × UserState) :=
  match AnalyzeForAppointment env message (joinHistory state.ConversationHistory) false with
  | none => none
  | some (analysis, _) =>
    match analysis with
    | some analysis =>
      if analysis.WantsToSchedule then some (startAppointmentFlow env state analysis message userName)
      else some (handleNormalConversation env message userName state)
    | none => some (handleNormalConversation env message userName state)

/-- The function `ProcessMessage`: the reply and the store after the call; `none` when the call
panics. -/
def ProcessMessage (env : Env) (userStates : Store) (message userID userName : String) :
    Option (String × Store) :=
  let (state, userStates) := GetUserState userStates userID env.nowCreate
  let state := { state with LastMessageTime := env.nowStamp }
  if state.AppointmentSaved = true ∧ sub64 env.nowGuard state.LastMessageTime < 5 then
    some ("", setUserState userStates userID state)
  else
    let state :=
      { state with ConversationHistory := state.ConversationHistory ++ ["Usuario: " ++ message] }
    if state.AppointmentSaved then
      let userStates := ClearUserState userStates userID
      let (newState, userStates) := GetUserState userStates userID env.nowReset
      let newState :=
        { newState with
          ConversationHistory := newState.ConversationHistory ++ ["Usuario: " ++ message] }
      (processNewMessage env message userID userName newState).map
        fun r => (r.1, setUserState userStates userID r.2)
    else
      match AnalyzeForAppointment env message (joinHistory state.ConversationHistory)
          state.IsScheduling with
      | none => none
      | some (analysis, err) =>
        let analysis :=
          match err with
          | some _ =>
            some
              ({ WantsToSchedule := env.ContainsKeywords message ["cita", "agendar"]
                 ExtractedData := some GoMap.empty
                 Confidence := 0 } : AppointmentAnalysis)
          | none => analysis
        match analysis with
        | none => none
        | some analysis =>
          let r :=
            if analysis.WantsToSchedule && !state.IsScheduling then
              startAppointmentFlow env state analysis message userName
            else if state.IsScheduling then
              continueAppointmentFlow env state analysis message userID userName
            else handleNormalConversation env message userName state
          some (r.1, setUserState userStates userID r.2)

/-- The value `analysis.ExtractedData[key]`: `""` for an absent key and for the nil map. -/
def extractedValue (analysis : AppointmentAnalysis) (key : String) : String :=
  match analysis.ExtractedData with
  | some extracted => extracted.get key
  | none => ""

/-! ## Reachable stores -/

/-- The store of a process that has just started: `make(map[string]*UserState)`. -/
def emptyStore : Store := fun _ => none

/-- Stores that the exported operations produce from the empty store, when every call of
`ProcessMessage` happens in an outside world satisfying `P`. -/
inductive ReachableVia (P : Env → Prop) : Store → Prop where
  | init : ReachableVia P emptyStore
  | get (userStates : Store) (userID : String) (now : Int) :
      ReachableVia P userStates → ReachableVia P (GetUserState userStates userID now).2
  | clear (userStates : Store) (userID : String) :
      ReachableVia P userStates → ReachableVia P (ClearUserState userStates userID)
  | process (env : Env) (userStates userStates' : Store) (message userID userName reply : String) :
      ReachableVia P userStates → P env →
      ProcessMessage env userStates message userID userName = some (reply, userStates') →
      ReachableVia P userStates'

/-- Stores reachable whatever the outside world does. -/
def Reachable : Store → Prop := ReachableVia fun _ => True

/-- The five slot names that `getMissingData` scans. -/
def requiredSlots : List String := ["nombre", "servicio", "barbero", "fecha", "hora"]

/-- An outside world whose JSON decoder yields no key outside the five slot names. -/
def DecodesOnlySlots (env : Env) : Prop :=
  ∀ jsonStr analysis extracted, env.Unmarshal jsonStr = some analysis →
    analysis.ExtractedData = some extracted → ∀ key ∈ extracted.keys, key ∈ requiredSlots

/-- The session as the flows receive it: stamped with the arrival time (line 105) and with the
user turn appended to the history (line 122). -/
def withUserTurn (env : Env) (state : UserState) (message : String) : UserState :=
  { state with
    LastMessageTime := env.nowStamp
    ConversationHistory := state.ConversationHistory ++ ["Usuario: " ++ message] }

/-- The session that `GetUserState` creates at time `now`. -/
def freshState (now : Int) : UserState :=
  { IsScheduling := false
    Step := 0
    Data := GoMap.empty
    ConversationHistory := []
    LastMessageTime := now
    AppointmentSaved := false }

/-- An analysis that `AnalyzeForAppointment` can return in the world `env`. -/
def Analysed (env : Env) (analysis : AppointmentAnalysis) : Prop :=
  ∃ (message history : String) (isCurrentlyScheduling : Bool),
    AnalyzeForAppointment env message history isCurrentlyScheduling = some (some analysis, none)

/-- The store after a call of `ProcessMessage`; the store as it was when the call panics. -/
def afterMessage (env : Env) (userStates : Store) (message userID userName : String) : Store :=
  match ProcessMessage env userStates message userID userName with
  | some r => r.2
  | none => userStates

/-! ## Sample worlds and sessions used to instantiate the theorems -/

/-- ASCII lower-casing, which is what `strings.ToLower` does on the sample messages. -/
def lowerAscii (s : String) : String := String.mk (s.data.map Char.toLower)

/-- A world without Gemini in which every persistence helper fails; the clock reads `now`. -/
def offlineEnv (now : Int) : Env :=
  { nowCreate := now
    nowStamp := now
    nowGuard := now
    nowReset := now
    geminiClient := none
    ToLower := lowerAscii
    Unmarshal := fun _ => none
    tidyAnswer := fun answer _ => answer
    ContainsKeywords := fun message keywords =>
      keywords.any fun keyword => strings_Contains (lowerAscii message) keyword
    IsGreeting := fun message => strings_Contains (lowerAscii message) "hola"
    ConvertirFechaADia := fun _ => ("", "", some "fecha no reconocida")
    NormalizarHora := fun _ => ("", some "hora no reconocida")
    SaveAppointmentToCalendar := fun _ => some "sheets no disponible"
    CreateCalendarEvent := fun _ => (none, some "calendar no disponible") }

/-- A world in which Gemini answers the analysis request with the text `json`, which the
decoder turns into `analysis`, and answers a chat request with `reply`; the persistence
helpers fail and the clock reads `now`. -/
def geminiEnv (now : Int) (json : String) (analysis : AppointmentAnalysis) (reply : String) :
    Env :=
  { offlineEnv now with
    geminiClient := some
      ⟨fun prompt =>
        if hasPrefixChars "Analiza este mensaje".data prompt.data then .parts json
        else .parts reply⟩
    Unmarshal := fun jsonStr => if jsonStr = json then some analysis else none }

/-- Store holding one session, of `userID`. -/
def singleStore (userID : String) (state : UserState) : Store :=
  setUserState emptyStore userID state

/-- A session in Booking that has collected the name only. -/
def bookingAna : UserState :=
  { IsScheduling := true
    Step := 1
    Data := GoMap.empty.set "nombre" "Ana"
    ConversationHistory := ["Usuario: quiero una cita", "Asistente: ¿Cuál es tu nombre?",
      "Usuario: Ana", "Asistente: ¿Qué servicio deseas?"]
    LastMessageTime := 1000
    AppointmentSaved := false }

/-- An analysis that extracted a name and a service. -/
def analysisLuisCorte : AppointmentAnalysis :=
  { WantsToSchedule := true
    ExtractedData := some ((GoMap.empty.set "nombre" "Luis").set "servicio" "Corte")
    Confidence := 0.9 }

/-- World in which the analysis is `analysisLuisCorte`. -/
def envLuisCorte : Env :=
  geminiEnv 1010
    "\x7b\"wantsToSchedule\": true, \"extractedData\": \x7b\"nombre\": \"Luis\", \"servicio\": \"Corte\"\x7d, \"confidence\": 0.9\x7d"
    analysisLuisCorte "¿Con qué barbero te gustaría?"

/-- An analysis that wants to book and extracted a name. -/
def analysisAna : AppointmentAnalysis :=
  { WantsToSchedule := true
    ExtractedData := some (GoMap.empty.set "nombre" "Ana")
    Confidence := 0.9 }

/-- World in which the analysis is `analysisAna`. -/
def envAna : Env :=
  geminiEnv 1010
    "\x7b\"wantsToSchedule\": true, \"extractedData\": \x7b\"nombre\": \"Ana\"\x7d, \"confidence\": 0.9\x7d"
    analysisAna "¿Qué servicio deseas, Ana?"

/-- Slots in which only the service and the barber are filled. -/
def dataServicioBarbero : GoMap :=
  (GoMap.empty.set "servicio" "Corte Tradicional").set "barbero" "Brandon"

/-- A session in Booking whose five slots are filled. -/
def bookingComplete : UserState :=
  { IsScheduling := true
    Step := 1
    Data := ((((GoMap.empty.set "nombre" "Ana").set "servicio" "Corte Tradicional").set
      "barbero" "Brandon").set "fecha" "mañana").set "hora" "10:00 AM"
    ConversationHistory := ["Usuario: quiero una cita"]
    LastMessageTime := 1000
    AppointmentSaved := false }

/-- An analysis that extracted nothing. -/
def analysisNothing : AppointmentAnalysis :=
  { WantsToSchedule := false
    ExtractedData := some GoMap.empty
    Confidence := 0.5 }

/-- World in which the analysis is `analysisNothing`; the clock reads `now`. -/
def envNothing (now : Int) : Env :=
  geminiEnv now
    "\x7b\"wantsToSchedule\": false, \"extractedData\": \x7b\x7d, \"confidence\": 0.5\x7d"
    analysisNothing "¡Con gusto!"

/-- A session whose appointment was saved; its last activity was recorded at time 1000. -/
def savedSession : UserState :=
  { bookingComplete with
    ConversationHistory := ["Usuario: quiero una cita", "Usuario: a las 10"]
    LastMessageTime := 1000
    AppointmentSaved := true }

/-- An analysis that wants to book and extracted the five slots. -/
def analysisFull : AppointmentAnalysis :=
  { WantsToSchedule := true
    ExtractedData := some (((((GoMap.empty.set "nombre" "Ana").set "servicio"
      "Corte Tradicional").set "barbero" "Brandon").set "fecha" "mañana").set "hora" "10:00 AM")
    Confidence := 0.9 }

/-- World in which the analysis is `analysisFull`. -/
def envFull : Env :=
  geminiEnv 1000
    "\x7b\"wantsToSchedule\": true, \"extractedData\": \x7b\"nombre\": \"Ana\", \"servicio\": \"Corte Tradicional\", \"barbero\": \"Brandon\", \"fecha\": \"mañana\", \"hora\": \"10:00 AM\"\x7d, \"confidence\": 0.9\x7d"
    analysisFull "¿Confirmas tu cita de mañana a las 10:00 AM con Brandon?"

/-- An analysis that wants to book and extracted a phone number. -/
def analysisTelefono : AppointmentAnalysis :=
  { WantsToSchedule := true
    ExtractedData := some (GoMap.empty.set "telefono" "6621234567")
    Confidence := 0.9 }

/-- World in which the analysis is `analysisTelefono`. -/
def envTelefono : Env :=
  geminiEnv 1000
    "\x7b\"wantsToSchedule\": true, \"extractedData\": \x7b\"telefono\": \"6621234567\"\x7d, \"confidence\": 0.9\x7d"
    analysisTelefono "¿Cuál es tu nombre?"

/-- The store after a first message from which the analysis extracts the five slots. -/
def bookedStore : Store :=
  afterMessage envFull emptyStore
    "Soy Ana, quiero un Corte Tradicional con Brandon mañana a las 10:00 AM" "5215550005" "Ana"

/-- The store after a second message from the same user: the appointment is saved. -/
def savedStore : Store :=
  afterMessage (envNothing 1010) bookedStore "sí, gracias" "5215550005" "Ana"

/-- The store after a greeting from a new user, without Gemini. -/
def greetedStore : Store :=
  afterMessage (offlineEnv 1000) emptyStore "hola" "5215550006" "Eva"

/-- The store after a first message from which the analysis extracts a phone number. -/
def telefonoStore : Store :=
  afterMessage envTelefono emptyStore
    "Quiero una cita, mi teléfono es 6621234567" "5215550007" "Leo"

/-- A world in which Gemini answers with a closing brace followed, two places later, by an
opening brace. -/
def reversedBracesEnv : Env :=
  { offlineEnv 1000 with geminiClient := some ⟨fun _ => .parts "\x7d \x7b"⟩ }

/-- The store after a first message asking for an appointment, in a world without Gemini: the
user is in Booking with no slot collected. -/
def offlineBookedStore : Store :=
  afterMessage (offlineEnv 1000) emptyStore "quiero una cita" "5215550009" "Ana"

/-- World in which Gemini answers the analysis request with a JSON object that decodes to
`analysisAna` and fails on every chat request. -/
def envAnaChatFails : Env :=
  { offlineEnv 1010 with
    geminiClient := some
      ⟨fun prompt =>
        if hasPrefixChars "Analiza este mensaje".data prompt.data then
          .parts "\x7b\"wantsToSchedule\": true, \"extractedData\": \x7b\"nombre\": \"Ana\"\x7d, \"confidence\": 0.9\x7d"
        else .failed "context deadline exceeded"⟩
    Unmarshal := fun jsonStr =>
      if jsonStr = "\x7b\"wantsToSchedule\": true, \"extractedData\": \x7b\"nombre\": \"Ana\"\x7d, \"confidence\": 0.9\x7d"
      then some analysisAna else none }

/-- The store after a first message from which the analysis extracts the name, the chat
request having failed. -/
def anaChatFailsStore : Store :=
  afterMessage envAnaChatFails emptyStore "Quiero una cita, soy Ana" "5215550010" "Ana"

/-! ## Lemmas on Go maps -/

/-- Lookup with the zero value as default, on entry lists. -/
theorem get_eq_lookup (m : GoMap) (key : String) :
    m.get key = (m.entries.lookup key).getD "" := by
  unfold GoMap.get
  cases m.entries.lookup key <;> rfl

theorem lookup_cons_eq (k v : String) (rest : List (String × String)) (key : String) :
    ((k, v) :: rest).lookup key = if key = k then some v else rest.lookup key := by
  rw [List.lookup_cons]
  by_cases h : key = k
  · simp [h]
  · have : (key == k) = false := by simpa using h
    simp [h, this]

theorem lookup_setEntries (l : List (String × String)) (key value key' : String) :
    (setEntries l key value).lookup key'
      = if key' = key then some value else l.lookup key' := by
  induction l with
  | nil =>
    simp only [setEntries, lookup_cons_eq, List.lookup_nil]
  | cons p rest ih =>
    obtain ⟨k, v⟩ := p
    by_cases hk : k = key
    · subst hk
      simp only [setEntries, if_true, lookup_cons_eq]
      by_cases h2 : key' = k <;> simp [h2]
    · simp only [setEntries, hk, if_false, lookup_cons_eq, ih]
      by_cases h2 : key' = k
      · have : ¬ key' = key := fun e => hk (h2.symm.trans e)
        simp [h2, hk]
      · simp [h2]

theorem GoMap.get_set (m : GoMap) (key value key' : String) :
    (m.set key value).get key' = if key' = key then value else m.get key' := by
  rw [get_eq_lookup, get_eq_lookup]
  show ((setEntries m.entries key value).lookup key').getD "" = _
  rw [lookup_setEntries]
  split <;> rfl

theorem GoMap.get_set_self (m : GoMap) (key value : String) :
    (m.set key value).get key = value := by
  rw [GoMap.get_set]; simp

theorem GoMap.get_set_of_ne (m : GoMap) (key value key' : String) (h : key' ≠ key) :
    (m.set key value).get key' = m.get key' := by
  rw [GoMap.get_set]; simp [h]

theorem keys_setEntries (l : List (String × String)) (key value : String) :
    (setEntries l key value).map Prod.fst
      = if key ∈ l.map Prod.fst then l.map Prod.fst else l.map Prod.fst ++ [key] := by
  induction l with
  | nil => simp [setEntries]
  | cons p rest ih =>
    obtain ⟨k, v⟩ := p
    by_cases hk : k = key
    · simp [setEntries, hk]
    · have hk2 : ¬ key = k := fun e => hk e.symm
      by_cases hm : key ∈ rest.map Prod.fst
      · simp only [setEntries, hk, if_false, List.map_cons, ih, hm, if_true,
          List.mem_cons, or_true]
      · simp only [setEntries, hk, if_false, List.map_cons, ih, hm,
          List.mem_cons, hk2, or_self, List.cons_append]

theorem GoMap.mem_keys_set (m : GoMap) (key value key' : String) :
    key' ∈ (m.set key value).keys ↔ key' = key ∨ key' ∈ m.keys := by
  show key' ∈ (setEntries m.entries key value).map Prod.fst ↔ _
  rw [keys_setEntries]
  unfold GoMap.keys
  split
  · rename_i h
    constructor
    · intro h'; exact Or.inr h'
    · rintro (h' | h')
      · rw [h']; exact h
      · exact h'
  · simp [or_comm]

theorem GoMap.get_of_not_mem_keys (m : GoMap) (key : String) (h : key ∉ m.keys) :
    m.get key = "" := by
  rw [get_eq_lookup]
  have : m.entries.lookup key = none := by
    rw [List.lookup_eq_none_iff]
    intro p hp
    have hne : key ≠ p.1 := by
      intro hkey
      apply h
      unfold GoMap.keys
      rw [List.mem_map]
      exact ⟨p, hp, hkey.symm⟩
    simpa using hne
  rw [this]; rfl

/-! ## The two merge loops -/

theorem mergeContinue_fold_filled (es : List (String × String)) (data : GoMap) (key : String)
    (h : data.get key ≠ "") :
    (es.foldl (fun data kv =>
        if kv.2 ≠ "" ∧ kv.2 ≠ "null" ∧ data.get kv.1 = "" then data.set kv.1 kv.2 else data)
      data).get key = data.get key := by
  induction es generalizing data with
  | nil => rfl
  | cons p rest ih =>
    rw [List.foldl_cons]
    by_cases hc : p.2 ≠ "" ∧ p.2 ≠ "null" ∧ data.get p.1 = ""
    · have hne : key ≠ p.1 := by
        intro e
        rw [e] at h
        exact h hc.2.2
      have hget : (data.set p.1 p.2).get key = data.get key := GoMap.get_set_of_ne _ _ _ _ hne
      rw [if_pos hc, ih (data.set p.1 p.2) (by rw [hget]; exact h), hget]
    · rw [if_neg hc]
      exact ih data h

theorem mergeContinue_fold_empty (es : List (String × String)) (data : GoMap) (key v : String)
    (h : data.get key = "") (hl : es.lookup key = some v) (hv : v ≠ "") (hn : v ≠ "null") :
    (es.foldl (fun data kv =>
        if kv.2 ≠ "" ∧ kv.2 ≠ "null" ∧ data.get kv.1 = "" then data.set kv.1 kv.2 else data)
      data).get key = v := by
  induction es generalizing data with
  | nil => simp at hl
  | cons p rest ih =>
    obtain ⟨k, w⟩ := p
    rw [List.foldl_cons]
    rw [lookup_cons_eq] at hl
    by_cases hk : key = k
    · subst hk
      rw [if_pos rfl] at hl
      have hw : w = v := Option.some.inj hl
      subst hw
      have hc : (key, w).2 ≠ "" ∧ (key, w).2 ≠ "null" ∧ data.get (key, w).1 = "" := ⟨hv, hn, h⟩
      rw [if_pos hc]
      have hget : (data.set key w).get key = w := GoMap.get_set_self _ _ _
      rw [mergeContinue_fold_filled rest _ key (by rw [hget]; exact hv), hget]
    · rw [if_neg hk] at hl
      by_cases hc : (k, w).2 ≠ "" ∧ (k, w).2 ≠ "null" ∧ data.get (k, w).1 = ""
      · rw [if_pos hc]
        exact ih _ (by rw [GoMap.get_set_of_ne _ _ _ _ hk]; exact h) hl
      · rw [if_neg hc]
        exact ih _ h hl

theorem mergeInitial_fold_absent (es : List (String × String)) (data : GoMap) (key : String)
    (h : key ∉ es.map Prod.fst) :
    (es.foldl (fun data kv => if kv.2 ≠ "" ∧ kv.2 ≠ "null" then data.set kv.1 kv.2 else data)
      data).get key = data.get key := by
  induction es generalizing data with
  | nil => rfl
  | cons p rest ih =>
    rw [List.foldl_cons]
    have hne : key ≠ p.1 := fun e => h (by simp [e])
    have hrest : key ∉ rest.map Prod.fst := fun e => h (by simp [List.mem_map] at e ⊢; exact Or.inr e)
    by_cases hc : p.2 ≠ "" ∧ p.2 ≠ "null"
    · rw [if_pos hc, ih _ hrest, GoMap.get_set_of_ne _ _ _ _ hne]
    · rw [if_neg hc, ih _ hrest]

theorem mergeInitial_fold_written (es : List (String × String)) (data : GoMap) (key v : String)
    (hd : (es.map Prod.fst).Nodup) (hl : es.lookup key = some v) (hv : v ≠ "")
    (hn : v ≠ "null") :
    (es.foldl (fun data kv => if kv.2 ≠ "" ∧ kv.2 ≠ "null" then data.set kv.1 kv.2 else data)
      data).get key = v := by
  induction es generalizing data with
  | nil => simp at hl
  | cons p rest ih =>
    obtain ⟨k, w⟩ := p
    rw [List.foldl_cons]
    rw [lookup_cons_eq] at hl
    rw [List.map_cons, List.nodup_cons] at hd
    by_cases hk : key = k
    · subst hk
      rw [if_pos rfl] at hl
      have hw : w = v := Option.some.inj hl
      subst hw
      have hc : (key, w).2 ≠ "" ∧ (key, w).2 ≠ "null" := ⟨hv, hn⟩
      rw [if_pos hc, mergeInitial_fold_absent rest _ key hd.1]
      exact GoMap.get_set_self _ _ _
    · rw [if_neg hk] at hl
      exact ih _ hd.2 hl

theorem mergeInitial_fold_skipped (es : List (String × String)) (data : GoMap) (key : String)
    (hd : (es.map Prod.fst).Nodup)
    (hl : (es.lookup key).getD "" = "" ∨ (es.lookup key).getD "" = "null") :
    (es.foldl (fun data kv => if kv.2 ≠ "" ∧ kv.2 ≠ "null" then data.set kv.1 kv.2 else data)
      data).get key = data.get key := by
  induction es generalizing data with
  | nil => rfl
  | cons p rest ih =>
    obtain ⟨k, w⟩ := p
    rw [List.foldl_cons]
    rw [lookup_cons_eq] at hl
    rw [List.map_cons, List.nodup_cons] at hd
    by_cases hk : key = k
    · subst hk
      rw [if_pos rfl] at hl
      have hc : ¬ ((key, w).2 ≠ "" ∧ (key, w).2 ≠ "null") := by
        rintro ⟨h1, h2⟩
        rcases hl with hl | hl
        · exact h1 hl
        · exact h2 hl
      rw [if_neg hc]
      exact mergeInitial_fold_absent rest _ key hd.1
    · rw [if_neg hk] at hl
      rw [ih _ hd.2 hl]
      split
      · exact GoMap.get_set_of_ne _ _ _ _ hk
      · rfl

/-! ## The branches of `ProcessMessage` -/

/-- On a session that is not saved, `ProcessMessage` runs the flow chosen by the analysis and
stores the session that the flow returns. -/
theorem ProcessMessage_of_not_saved (env : Env) (userStates : Store)
    (message userID userName : String) (analysis : AppointmentAnalysis)
    (hsaved : (GetUserState userStates userID env.nowCreate).1.AppointmentSaved = false)
    (hanalysis : AnalyzeForAppointment env message
      (joinHistory
        (withUserTurn env (GetUserState userStates userID env.nowCreate).1 message).ConversationHistory)
      (GetUserState userStates userID env.nowCreate).1.IsScheduling = some (some analysis, none)) :
    ProcessMessage env userStates message userID userName
      = some
        ((if analysis.WantsToSchedule
              && !(GetUserState userStates userID env.nowCreate).1.IsScheduling then
            startAppointmentFlow env
              (withUserTurn env (GetUserState userStates userID env.nowCreate).1 message)
              analysis message userName
          else if (GetUserState userStates userID env.nowCreate).1.IsScheduling then
            continueAppointmentFlow env
              (withUserTurn env (GetUserState userStates userID env.nowCreate).1 message)
              analysis message userID userName
          else
            handleNormalConversation env message userName
              (withUserTurn env (GetUserState userStates userID env.nowCreate).1 message)).1,
         setUserState (GetUserState userStates userID env.nowCreate).2 userID
          (if analysis.WantsToSchedule
              && !(GetUserState userStates userID env.nowCreate).1.IsScheduling then
            startAppointmentFlow env
              (withUserTurn env (GetUserState userStates userID env.nowCreate).1 message)
              analysis message userName
          else if (GetUserState userStates userID env.nowCreate).1.IsScheduling then
            continueAppointmentFlow env
              (withUserTurn env (GetUserState userStates userID env.nowCreate).1 message)
              analysis message userID userName
          else
            handleNormalConversation env message userName
              (withUserTurn env (GetUserState userStates userID env.nowCreate).1 message)).2) := by
  unfold ProcessMessage
  generalize GetUserState userStates userID env.nowCreate = g at hsaved hanalysis ⊢
  obtain ⟨state, store⟩ := g
  simp only [withUserTurn] at hanalysis ⊢
  simp only at hsaved
  simp only [hsaved, hanalysis, Bool.false_eq_true, false_and, if_false]

/-- Slots of the session after the merge of `continueAppointmentFlow`. -/
theorem continueAppointmentFlow_data (env : Env) (state : UserState)
    (analysis : AppointmentAnalysis) (message userID userName : String) :
    (continueAppointmentFlow env state analysis message userID userName).2.Data
      = match analysis.ExtractedData with
        | some extracted => mergeContinue state.Data extracted
        | none => state.Data := by
  unfold continueAppointmentFlow
  cases analysis.ExtractedData <;> dsimp only <;> split <;> first | rfl | (split <;> rfl)

/-- Slots of the session after the merge of `startAppointmentFlow`. -/
theorem startAppointmentFlow_data (env : Env) (state : UserState)
    (analysis : AppointmentAnalysis) (message userName : String) :
    (startAppointmentFlow env state analysis message userName).2.Data
      = match analysis.ExtractedData with
        | some extracted => mergeInitial state.Data extracted
        | none => state.Data := by
  unfold startAppointmentFlow
  cases analysis.ExtractedData <;> (dsimp only; split <;> rfl)

/-- Flags of the session after `startAppointmentFlow`. -/
theorem startAppointmentFlow_flags (env : Env) (state : UserState)
    (analysis : AppointmentAnalysis) (message userName : String) :
    (startAppointmentFlow env state analysis message userName).2.IsScheduling = true ∧
    (startAppointmentFlow env state analysis message userName).2.Step = 1 ∧
    (startAppointmentFlow env state analysis message userName).2.AppointmentSaved
      = state.AppointmentSaved := by
  unfold startAppointmentFlow
  cases analysis.ExtractedData <;> (dsimp only; split <;> exact ⟨rfl, rfl, rfl⟩)

theorem GetUserState_of_some (userStates : Store) (userID : String) (now : Int)
    (state : UserState) (h : userStates userID = some state) :
    GetUserState userStates userID now = (state, userStates) := by
  unfold GetUserState
  rw [h]

theorem setUserState_self (userStates : Store) (userID : String) (state : UserState) :
    setUserState userStates userID state userID = some state := by
  simp [setUserState]

theorem setUserState_of_ne (userStates : Store) (userID other : String) (state : UserState)
    (h : other ≠ userID) : setUserState userStates userID state other = userStates other := by
  simp [setUserState, h]

/-! ## C1: continuation merge -/

/-- C1. Continuation merge: for a stored session in Booking that is not saved, whatever the
message and whatever analysis `AnalyzeForAppointment` returns, `ProcessMessage` returns a reply
and leaves a session in which every slot that was non-empty before the call has kept its value,
and every slot that was empty and for which the analysis extracted a value that is neither
empty nor `"null"` holds the extracted value. -/
theorem continuation_merge_keeps_filled_slots (env : Env) (userStates : Store)
    (message userID userName : String) (state : UserState) (analysis : AppointmentAnalysis)
    (hstate : userStates userID = some state)
    (hsched : state.IsScheduling = true) (hsaved : state.AppointmentSaved = false)
    (hanalysis : AnalyzeForAppointment env message
      (joinHistory (state.ConversationHistory ++ ["Usuario: " ++ message])) true
        = some (some analysis, none)) :
    ∃ reply userStates' state',
      ProcessMessage env userStates message userID userName = some (reply, userStates') ∧
      userStates' userID = some state' ∧
      ∀ key : String,
        (state.Data.get key ≠ "" → state'.Data.get key = state.Data.get key) ∧
        (state.Data.get key = "" → extractedValue analysis key ≠ "" →
          extractedValue analysis key ≠ "null" →
          state'.Data.get key = extractedValue analysis key) := by
  have hget := GetUserState_of_some userStates userID env.nowCreate state hstate
  have hpm := ProcessMessage_of_not_saved env userStates message userID userName analysis
    (by rw [hget]; exact hsaved) (by rw [hget]; simpa [withUserTurn, hsched] using hanalysis)
  rw [hget] at hpm
  simp only [hsched, Bool.not_true, Bool.and_false, Bool.false_eq_true, if_false, if_true]
    at hpm
  refine ⟨_, _, _, hpm, setUserState_self _ _ _, ?_⟩
  intro key
  rw [continueAppointmentFlow_data]
  unfold extractedValue
  cases hE : analysis.ExtractedData with
  | none =>
    constructor
    · intro _; rfl
    · intro _ h; exact absurd rfl h
  | some extracted =>
    constructor
    · intro h
      exact mergeContinue_fold_filled extracted.entries _ key h
    · intro h hv hn
      dsimp only at hv hn ⊢
      have hl : extracted.entries.lookup key = some (extracted.get key) := by
        rw [get_eq_lookup] at hv ⊢
        cases hlk : extracted.entries.lookup key with
        | none => rw [hlk] at hv; exact absurd rfl hv
        | some w => rfl
      exact mergeContinue_fold_empty extracted.entries _ key _ h hl hv hn

set_option maxRecDepth 8000 in
/-- Instance of C1 on the example of the specification: the session holds the name Ana and
the analysis extracts the name Luis and the service Corte. -/
theorem continuation_merge_keeps_filled_slots_witness :
    (singleStore "5215550001" bookingAna "5215550001" = some bookingAna ∧
      bookingAna.IsScheduling = true ∧ bookingAna.AppointmentSaved = false ∧
      bookingAna.Data.get "nombre" = "Ana" ∧ bookingAna.Data.get "servicio" = "" ∧
      extractedValue analysisLuisCorte "nombre" = "Luis" ∧
      extractedValue analysisLuisCorte "servicio" = "Corte") ∧
    (ProcessMessage envLuisCorte (singleStore "5215550001" bookingAna)
        "Soy Luis, un Corte" "5215550001" "Ana").map
      (fun r => (r.1, (r.2 "5215550001").map fun state => state.Data.entries))
      = some ("¿Con qué barbero te gustaría?",
          some [("nombre", "Ana"), ("servicio", "Corte")]) ∧
    ∃ reply userStates' state',
      ProcessMessage envLuisCorte (singleStore "5215550001" bookingAna)
        "Soy Luis, un Corte" "5215550001" "Ana" = some (reply, userStates') ∧
      userStates' "5215550001" = some state' ∧
      ∀ key : String,
        (bookingAna.Data.get key ≠ "" → state'.Data.get key = bookingAna.Data.get key) ∧
        (bookingAna.Data.get key = "" → extractedValue analysisLuisCorte key ≠ "" →
          extractedValue analysisLuisCorte key ≠ "null" →
          state'.Data.get key = extractedValue analysisLuisCorte key) :=
  ⟨⟨rfl, rfl, rfl, rfl, rfl, rfl, rfl⟩, rfl,
    continuation_merge_keeps_filled_slots envLuisCorte
      (singleStore "5215550001" bookingAna) "Soy Luis, un Corte" "5215550001" "Ana" bookingAna
      analysisLuisCorte rfl rfl rfl rfl⟩

/-! ## C2: initiation merge -/

/-- C2. Initiation merge: for a session (stored, or created by this call) that is neither in
Booking nor saved, and an analysis that wants to book, `ProcessMessage` returns a reply and
leaves a session with `IsScheduling = true` and `Step = 1` in which every slot for which the
analysis extracted a value that is neither empty nor `"null"` holds the extracted value,
whatever it held before, and every other slot is unchanged. -/
theorem initiation_merge_overwrites (env : Env) (userStates : Store)
    (message userID userName : String) (state : UserState) (analysis : AppointmentAnalysis)
    (hstate : (GetUserState userStates userID env.nowCreate).1 = state)
    (hsched : state.IsScheduling = false) (hsaved : state.AppointmentSaved = false)
    (hwants : analysis.WantsToSchedule = true)
    (hanalysis : AnalyzeForAppointment env message
      (joinHistory (state.ConversationHistory ++ ["Usuario: " ++ message])) false
        = some (some analysis, none)) :
    ∃ reply userStates' state',
      ProcessMessage env userStates message userID userName = some (reply, userStates') ∧
      userStates' userID = some state' ∧
      state'.IsScheduling = true ∧ state'.Step = 1 ∧
      ∀ key : String,
        (extractedValue analysis key ≠ "" → extractedValue analysis key ≠ "null" →
          state'.Data.get key = extractedValue analysis key) ∧
        (extractedValue analysis key = "" ∨ extractedValue analysis key = "null" →
          state'.Data.get key = state.Data.get key) := by
  have hpm := ProcessMessage_of_not_saved env userStates message userID userName analysis
    (by rw [hstate]; exact hsaved)
    (by rw [hstate]; simpa [withUserTurn, hsched] using hanalysis)
  rw [hstate] at hpm
  simp only [hsched, hwants, Bool.not_false, Bool.and_true, if_true] at hpm
  have hflags := startAppointmentFlow_flags env (withUserTurn env state message) analysis
    message userName
  refine ⟨_, _, _, hpm, setUserState_self _ _ _, hflags.1, hflags.2.1, ?_⟩
  intro key
  rw [startAppointmentFlow_data]
  unfold extractedValue
  cases hE : analysis.ExtractedData with
  | none =>
    constructor
    · intro h; exact absurd rfl h
    · intro _; rfl
  | some extracted =>
    dsimp only
    constructor
    · intro hv hn
      have hl : extracted.entries.lookup key = some (extracted.get key) := by
        rw [get_eq_lookup] at hv ⊢
        cases hlk : extracted.entries.lookup key with
        | none => rw [hlk] at hv; exact absurd rfl hv
        | some w => rfl
      exact mergeInitial_fold_written extracted.entries _ key _ extracted.nodup hl hv hn
    · intro h
      rw [get_eq_lookup] at h
      exact mergeInitial_fold_skipped extracted.entries _ key extracted.nodup h

set_option maxRecDepth 8000 in
/-- Instance of C2 on the example of the specification: a new user, and an analysis that wants
to book and extracts the name Ana. -/
theorem initiation_merge_overwrites_witness :
    ((GetUserState emptyStore "5215550002" 1010).1.IsScheduling = false ∧
      (GetUserState emptyStore "5215550002" 1010).1.AppointmentSaved = false ∧
      (GetUserState emptyStore "5215550002" 1010).1.Data.keys = [] ∧
      analysisAna.WantsToSchedule = true ∧ extractedValue analysisAna "nombre" = "Ana") ∧
    (ProcessMessage envAna emptyStore "Quiero una cita, soy Ana" "5215550002" "Ana").map
      (fun r => (r.1, (r.2 "5215550002").map fun state =>
        (state.Data.entries, state.IsScheduling, state.Step)))
      = some ("¿Qué servicio deseas, Ana?", some ([("nombre", "Ana")], true, 1)) ∧
    ∃ reply userStates' state',
      ProcessMessage envAna emptyStore "Quiero una cita, soy Ana"
        "5215550002" "Ana" = some (reply, userStates') ∧
      userStates' "5215550002" = some state' ∧
      state'.IsScheduling = true ∧ state'.Step = 1 ∧
      ∀ key : String,
        (extractedValue analysisAna key ≠ "" → extractedValue analysisAna key ≠ "null" →
          state'.Data.get key = extractedValue analysisAna key) ∧
        (extractedValue analysisAna key = "" ∨ extractedValue analysisAna key = "null" →
          state'.Data.get key = (GetUserState emptyStore "5215550002" 1010).1.Data.get key) :=
  ⟨⟨rfl, rfl, rfl, rfl, rfl⟩, rfl,
    initiation_merge_overwrites envAna emptyStore
      "Quiero una cita, soy Ana" "5215550002" "Ana" _ analysisAna rfl rfl rfl rfl rfl⟩

/-! ## C3: the missing slots and the slot that is requested -/

theorem getMissingData_fold (data : GoMap) (fields acc : List String) :
    fields.foldl
        (fun missing field => if data.get field = "" then missing ++ [field] else missing) acc
      = acc ++ fields.filter fun field => decide (data.get field = "") := by
  induction fields generalizing acc with
  | nil => simp
  | cons f rest ih =>
    rw [List.foldl_cons, ih]
    by_cases h : data.get f = ""
    · simp [h, List.filter_cons]
    · simp [h, List.filter_cons]

theorem getMissingData_eq_filter (data : GoMap) :
    getMissingData data = requiredSlots.filter fun field => decide (data.get field = "") := by
  unfold getMissingData requiredSlots
  rw [getMissingData_fold]
  rfl

theorem GoMap.get_eq_empty_iff (data : GoMap) (key : String) :
    data.get key = "" ↔ key ∉ data.keys ∨ data.entries.lookup key = some "" := by
  constructor
  · intro h
    rw [get_eq_lookup] at h
    cases hl : data.entries.lookup key with
    | none =>
      left
      rw [List.lookup_eq_none_iff] at hl
      intro hmem
      unfold GoMap.keys at hmem
      rw [List.mem_map] at hmem
      obtain ⟨p, hp, hk⟩ := hmem
      have := hl p hp
      simp [hk] at this
    | some v =>
      right
      rw [hl] at h
      exact congrArg some h
  · rintro (h | h)
    · exact GoMap.get_of_not_mem_keys data key h
    · rw [get_eq_lookup, h]; rfl

/-- What holds of the missing slots. The function `getMissingData` returns the sublist of
`[nombre, servicio, barbero, fecha, hora]`, in that order, of the names whose value in the map
is empty or absent; so it never contains `telefono` nor any other name outside the five. The
first element of that list is the slot named in the directive that
`continueAppointmentFlow` and `startAppointmentFlow` hand to `Chat`, and in the reply that
`continueAppointmentFlow` gives by itself when `Chat` fails; the reply that
`startAppointmentFlow` gives by itself when `Chat` fails is a fixed text. -/
theorem getMissingData_order_and_request (data : GoMap) :
    getMissingData data = requiredSlots.filter (fun field => decide (data.get field = "")) ∧
    (∀ field, data.get field = "" ↔
      field ∉ data.keys ∨ data.entries.lookup field = some "") ∧
    List.Sublist (getMissingData data) ["nombre", "servicio", "barbero", "fecha", "hora"] ∧
    "telefono" ∉ getMissingData data ∧
    (∀ field ∈ getMissingData data, field ∈ requiredSlots) ∧
    (∀ (env : Env) (state : UserState) (analysis : AppointmentAnalysis)
        (message userID userName : String),
      (continueAppointmentFlow env state analysis message userID userName).1
        = match (getMissingData
              (continueAppointmentFlow env state analysis message userID userName).2.Data).head? with
          | some first =>
            match Chat env
                ("Pide ÚNICAMENTE el siguiente dato: " ++ first ++ ". Datos ya recopilados: "
                  ++ fmtMap
                    (continueAppointmentFlow env state analysis message userID userName).2.Data
                  ++ ". NO repitas preguntas. NO pidas teléfono. Sé breve.")
                message (joinHistory state.ConversationHistory) with
            | (_, some _) => "Por favor, dime tu " ++ first ++ ":"
            | (response, none) => response
          | none =>
            (saveAppointment env
              { state with
                Data := (continueAppointmentFlow env state analysis message userID userName).2.Data }
              userID userName).1) ∧
    (∀ (env : Env) (state : UserState) (analysis : AppointmentAnalysis)
        (message userName : String),
      (startAppointmentFlow env state analysis message userName).1
        = match Chat env
            (match (getMissingData
                (startAppointmentFlow env state analysis message userName).2.Data).head? with
              | some first =>
                "Pide el siguiente dato: " ++ first ++ ". Datos ya recopilados: "
                  ++ fmtMap (startAppointmentFlow env state analysis message userName).2.Data
                  ++ ". NO pidas teléfono. Sé breve."
              | none =>
                "Confirma todos los datos antes de guardar: "
                  ++ fmtMap (startAppointmentFlow env state analysis message userName).2.Data)
            message (joinHistory state.ConversationHistory) with
          | (_, some _) =>
            "¡Perfecto! Vamos a agendar tu cita. Por favor, dime tu nombre completo:"
          | (response, none) => response) := by
  refine ⟨getMissingData_eq_filter data, GoMap.get_eq_empty_iff data, ?_, ?_, ?_, ?_, ?_⟩
  · rw [getMissingData_eq_filter]
    exact List.filter_sublist _
  · rw [getMissingData_eq_filter]
    intro h
    have := (List.mem_filter.mp h).1
    revert this
    unfold requiredSlots
    decide
  · intro field h
    rw [getMissingData_eq_filter] at h
    exact (List.mem_filter.mp h).1
  · intro env state analysis message userID userName
    rw [continueAppointmentFlow_data]
    unfold continueAppointmentFlow
    cases analysis.ExtractedData with
    | none =>
      dsimp only
      cases hm : getMissingData state.Data with
      | nil => rfl
      | cons first rest =>
        dsimp only [List.head?]
        split <;> rfl
    | some extracted =>
      dsimp only
      cases hm : getMissingData (mergeContinue state.Data extracted) with
      | nil => rfl
      | cons first rest =>
        dsimp only [List.head?]
        split <;> rfl
  · intro env state analysis message userName
    rw [startAppointmentFlow_data]
    unfold startAppointmentFlow
    cases analysis.ExtractedData with
    | none =>
      dsimp only
      cases hm : getMissingData state.Data with
      | nil => dsimp only [List.head?]; split <;> rfl
      | cons first rest => dsimp only [List.head?]; split <;> rfl
    | some extracted =>
      dsimp only
      cases hm : getMissingData (mergeInitial state.Data extracted) with
      | nil => dsimp only [List.head?]; split <;> rfl
      | cons first rest => dsimp only [List.head?]; split <;> rfl

/-- The example of the specification: with only the service and the barber filled, the
missing slots are the name, the date and the time, the name first. -/
theorem getMissingData_order_and_request_witness :
    getMissingData dataServicioBarbero = ["nombre", "fecha", "hora"] ∧
    (getMissingData dataServicioBarbero).head? = some "nombre" ∧
    "telefono" ∉ getMissingData dataServicioBarbero :=
  ⟨(getMissingData_order_and_request dataServicioBarbero).1.trans (by decide), by decide,
    (getMissingData_order_and_request dataServicioBarbero).2.2.2.1⟩

set_option maxRecDepth 8000 in
/-- C3. The slot that `startAppointmentFlow` requests is not always the first missing one. A
new user writes a first message from which the analysis extracts the name, and the chat
request then fails. The session holds the name, so the missing slots are
`[servicio, barbero, fecha, hora]` with `servicio` first, yet `ProcessMessage` returns the
fixed text of line 203, which asks for the name. On the next message of the same user, in
the same world, `continueAppointmentFlow` asks for `servicio`, the first missing slot. -/
theorem start_fallback_asks_name_when_servicio_is_first_missing :
    (GetUserState emptyStore "5215550010" 1010).1.IsScheduling = false ∧
    AnalyzeForAppointment envAnaChatFails "Quiero una cita, soy Ana"
        (joinHistory ["Usuario: Quiero una cita, soy Ana"]) false
      = some (some analysisAna, none) ∧
    (Chat envAnaChatFails
        ("Pide el siguiente dato: servicio. Datos ya recopilados: map[nombre:Ana]"
          ++ ". NO pidas teléfono. Sé breve.")
        "Quiero una cita, soy Ana" (joinHistory ["Usuario: Quiero una cita, soy Ana"])).2
      = some "error generando respuesta: context deadline exceeded" ∧
    (ProcessMessage envAnaChatFails emptyStore "Quiero una cita, soy Ana" "5215550010"
        "Ana").map
      (fun r => (r.1, (r.2 "5215550010").map fun state =>
        (state.IsScheduling, state.Data.entries, getMissingData state.Data,
          (getMissingData state.Data).head?)))
      = some ("¡Perfecto! Vamos a agendar tu cita. Por favor, dime tu nombre completo:",
          some (true, [("nombre", "Ana")], ["servicio", "barbero", "fecha", "hora"],
            some "servicio")) ∧
    (ProcessMessage envAnaChatFails anaChatFailsStore "Ana" "5215550010" "Ana").map
      (fun r => (r.1, (r.2 "5215550010").map fun state =>
        (getMissingData state.Data).head?))
      = some ("Por favor, dime tu servicio:", some (some "servicio")) :=
  ⟨rfl, rfl, rfl, rfl, rfl⟩

/-! ## C4: completion -/

theorem getMissingData_eq_nil (data : GoMap)
    (h : ∀ field ∈ requiredSlots, data.get field ≠ "") : getMissingData data = [] := by
  rw [getMissingData_eq_filter, List.filter_eq_nil_iff]
  intro field hf
  simpa using h field hf

/-- Reply and flags of `saveAppointment`. -/
theorem saveAppointment_result (env : Env) (state : UserState) (userID userName : String) :
    (saveAppointment env state userID userName).2 = { state with AppointmentSaved := true } ∧
    ∃ linkLine : String,
      (saveAppointment env state userID userName).1
        = "¡Perfecto! 🎉 Tu cita ha sido agendada exitosamente.\n\n"
          ++ "📋 Resumen de tu cita:\n\n"
          ++ ("👤 Nombre: " ++ state.Data.get "nombre" ++ "\n")
          ++ ("✂️ Servicio: " ++ state.Data.get "servicio" ++ "\n")
          ++ ("💈 Barbero: " ++ state.Data.get "barbero" ++ "\n")
          ++ ("📅 Fecha: "
            ++ (match env.ConvertirFechaADia (state.Data.get "fecha") with
                | (_, _, some _) => state.Data.get "fecha"
                | (_, fechaExacta, none) => fechaExacta)
            ++ "\n")
          ++ ("⏰ Hora: "
            ++ (match env.NormalizarHora (state.Data.get "hora") with
                | (_, some _) => state.Data.get "hora"
                | (horaNormalizada, none) => horaNormalizada)
            ++ "\n\n")
          ++ linkLine
          ++ "Te esperamos en la fecha y hora acordada. ¡Gracias por confiar en nosotros! 😊" := by
  refine ⟨rfl, ?_⟩
  unfold saveAppointment
  dsimp only
  split
  · rename_i event _
    exact ⟨"🔗 Evento en Calendar: " ++ event.HtmlLink ++ "\n\n", rfl⟩
  · refine ⟨"", ?_⟩
    rw [String.append_empty]

/-- C4. Completion trigger: for a stored session in Booking, not saved, whose five slots are
all non-empty, whatever the message, the analysis returned and the outcomes of date
normalisation, time normalisation, spreadsheet append and calendar creation, `ProcessMessage`
returns the confirmation message, which carries the name, service and barber of the session,
and leaves the session with `AppointmentSaved = true`. -/
theorem completion_trigger (env : Env) (userStates : Store)
    (message userID userName : String) (state : UserState) (analysis : AppointmentAnalysis)
    (hstate : userStates userID = some state)
    (hsched : state.IsScheduling = true) (hsaved : state.AppointmentSaved = false)
    (hfull : ∀ field ∈ requiredSlots, state.Data.get field ≠ "")
    (hanalysis : AnalyzeForAppointment env message
      (joinHistory (state.ConversationHistory ++ ["Usuario: " ++ message])) true
        = some (some analysis, none)) :
    ∃ (userStates' : Store) (state' : UserState) (linkLine : String),
      ProcessMessage env userStates message userID userName
        = some
          ("¡Perfecto! 🎉 Tu cita ha sido agendada exitosamente.\n\n"
            ++ "📋 Resumen de tu cita:\n\n"
            ++ ("👤 Nombre: " ++ state.Data.get "nombre" ++ "\n")
            ++ ("✂️ Servicio: " ++ state.Data.get "servicio" ++ "\n")
            ++ ("💈 Barbero: " ++ state.Data.get "barbero" ++ "\n")
            ++ ("📅 Fecha: "
              ++ (match env.ConvertirFechaADia (state.Data.get "fecha") with
                  | (_, _, some _) => state.Data.get "fecha"
                  | (_, fechaExacta, none) => fechaExacta)
              ++ "\n")
            ++ ("⏰ Hora: "
              ++ (match env.NormalizarHora (state.Data.get "hora") with
                  | (_, some _) => state.Data.get "hora"
                  | (horaNormalizada, none) => horaNormalizada)
              ++ "\n\n")
            ++ linkLine
            ++ "Te esperamos en la fecha y hora acordada. ¡Gracias por confiar en nosotros! 😊",
           userStates') ∧
      userStates' userID = some state' ∧ state'.AppointmentSaved = true := by
  have hget := GetUserState_of_some userStates userID env.nowCreate state hstate
  have hpm := ProcessMessage_of_not_saved env userStates message userID userName analysis
    (by rw [hget]; exact hsaved) (by rw [hget]; simpa [withUserTurn, hsched] using hanalysis)
  rw [hget] at hpm
  simp only [hsched, Bool.not_true, Bool.and_false, Bool.false_eq_true, if_false, if_true]
    at hpm
  -- the merge leaves the five filled slots as they are
  have hkeep : ∀ field ∈ requiredSlots,
      (continueAppointmentFlow env (withUserTurn env state message) analysis message userID
        userName).2.Data.get field = state.Data.get field := by
    intro field hf
    rw [continueAppointmentFlow_data]
    cases analysis.ExtractedData with
    | none => rfl
    | some extracted =>
      exact mergeContinue_fold_filled extracted.entries _ field (hfull field hf)
  have hcont : continueAppointmentFlow env (withUserTurn env state message) analysis message
      userID userName
      = saveAppointment env
          { withUserTurn env state message with
            Data := (continueAppointmentFlow env (withUserTurn env state message) analysis
              message userID userName).2.Data } userID userName := by
    have hnil : getMissingData (continueAppointmentFlow env (withUserTurn env state message)
        analysis message userID userName).2.Data = [] :=
      getMissingData_eq_nil _ fun field hf => by rw [hkeep field hf]; exact hfull field hf
    rw [continueAppointmentFlow_data] at hnil ⊢
    unfold continueAppointmentFlow
    revert hnil
    cases analysis.ExtractedData with
    | none =>
      intro hnil
      dsimp only at hnil ⊢
      rw [hnil]
    | some extracted =>
      intro hnil
      dsimp only at hnil ⊢
      rw [hnil]
  obtain ⟨hstate', linkLine, hreply⟩ := saveAppointment_result env
    { withUserTurn env state message with
      Data := (continueAppointmentFlow env (withUserTurn env state message) analysis
        message userID userName).2.Data } userID userName
  dsimp only at hreply
  rw [hkeep "nombre" (by decide), hkeep "servicio" (by decide), hkeep "barbero" (by decide),
    hkeep "fecha" (by decide), hkeep "hora" (by decide)] at hreply
  refine ⟨setUserState userStates userID
      (continueAppointmentFlow env (withUserTurn env state message) analysis message userID
        userName).2,
    (continueAppointmentFlow env (withUserTurn env state message) analysis message userID
        userName).2, linkLine, ?_, setUserState_self _ _ _, ?_⟩
  · rw [hpm, ← hreply, ← hcont]
  · rw [hcont, hstate']

set_option maxRecDepth 8000 in
/-- Instance of C4: the five slots are filled and date normalisation, time normalisation,
spreadsheet append and calendar creation all fail. -/
theorem completion_trigger_witness :
    (singleStore "5215550003" bookingComplete "5215550003" = some bookingComplete ∧
      (∀ field ∈ requiredSlots, bookingComplete.Data.get field ≠ "") ∧
      ((envNothing 1010).ConvertirFechaADia "mañana").2.2.isSome = true ∧
      ((envNothing 1010).NormalizarHora "10:00 AM").2.isSome = true ∧
      ((envNothing 1010).SaveAppointmentToCalendar GoMap.empty).isSome = true ∧
      ((envNothing 1010).CreateCalendarEvent GoMap.empty).2.isSome = true) ∧
    (ProcessMessage (envNothing 1010) (singleStore "5215550003" bookingComplete)
        "gracias" "5215550003" "Ana").map
      (fun r => (r.1, (r.2 "5215550003").map fun state => state.AppointmentSaved))
      = some ("¡Perfecto! 🎉 Tu cita ha sido agendada exitosamente.\n\n"
          ++ "📋 Resumen de tu cita:\n\n"
          ++ "👤 Nombre: Ana\n"
          ++ "✂️ Servicio: Corte Tradicional\n"
          ++ "💈 Barbero: Brandon\n"
          ++ "📅 Fecha: mañana\n"
          ++ "⏰ Hora: 10:00 AM\n\n"
          ++ "Te esperamos en la fecha y hora acordada. ¡Gracias por confiar en nosotros! 😊",
          some true) ∧
    ∃ (userStates' : Store) (state' : UserState) (linkLine : String),
      ProcessMessage (envNothing 1010) (singleStore "5215550003" bookingComplete)
          "gracias" "5215550003" "Ana"
        = some
          ("¡Perfecto! 🎉 Tu cita ha sido agendada exitosamente.\n\n"
            ++ "📋 Resumen de tu cita:\n\n"
            ++ ("👤 Nombre: " ++ bookingComplete.Data.get "nombre" ++ "\n")
            ++ ("✂️ Servicio: " ++ bookingComplete.Data.get "servicio" ++ "\n")
            ++ ("💈 Barbero: " ++ bookingComplete.Data.get "barbero" ++ "\n")
            ++ ("📅 Fecha: "
              ++ (match (envNothing 1010).ConvertirFechaADia
                      (bookingComplete.Data.get "fecha") with
                  | (_, _, some _) => bookingComplete.Data.get "fecha"
                  | (_, fechaExacta, none) => fechaExacta)
              ++ "\n")
            ++ ("⏰ Hora: "
              ++ (match (envNothing 1010).NormalizarHora
                      (bookingComplete.Data.get "hora") with
                  | (_, some _) => bookingComplete.Data.get "hora"
                  | (horaNormalizada, none) => horaNormalizada)
              ++ "\n\n")
            ++ linkLine
            ++ "Te esperamos en la fecha y hora acordada. ¡Gracias por confiar en nosotros! 😊",
           userStates') ∧
      userStates' "5215550003" = some state' ∧ state'.AppointmentSaved = true :=
  ⟨⟨rfl, by decide, rfl, rfl, rfl, rfl⟩, rfl,
    completion_trigger (envNothing 1010)
      (singleStore "5215550003" bookingComplete) "gracias" "5215550003" "Ana" bookingComplete
      analysisNothing rfl rfl rfl (by decide) rfl⟩

/-! ## C5: a saved session, ten seconds after its last activity -/

/-- C5. The saved session recorded its last activity at time 1000 and the next message arrives
at time 1010, every reading of the clock during the call being 1010: `ProcessMessage` returns
the empty string and the stored session is still the saved one, with its history untouched and
only `LastMessageTime` moved to 1010. -/
theorem saved_session_ignored_after_ten_seconds :
    savedSession.AppointmentSaved = true ∧ savedSession.LastMessageTime = 1000 ∧
    (offlineEnv 1010).nowStamp = 1010 ∧ (offlineEnv 1010).nowGuard = 1010 ∧
    (ProcessMessage (offlineEnv 1010) (singleStore "5215550004" savedSession) "hola"
        "5215550004" "Ana").map
      (fun r => (r.1, (r.2 "5215550004").map fun s =>
        (s.AppointmentSaved, s.IsScheduling, s.LastMessageTime, s.ConversationHistory)))
      = some ("", some (true, true, 1010, ["Usuario: quiero una cita", "Usuario: a las 10"])) := by
  refine ⟨rfl, rfl, rfl, rfl, ?_⟩
  rfl

/-! ## One call of `ProcessMessage`, case by case -/

theorem GetUserState_of_none (userStates : Store) (userID : String) (now : Int)
    (h : userStates userID = none) :
    GetUserState userStates userID now
      = (freshState now, setUserState userStates userID (freshState now)) := by
  unfold GetUserState
  rw [h]
  rfl

theorem GetUserState_other (userStates : Store) (userID other : String) (now : Int)
    (h : other ≠ userID) : (GetUserState userStates userID now).2 other = userStates other := by
  unfold GetUserState
  cases userStates userID with
  | none => exact setUserState_of_ne _ _ _ _ h
  | some state => rfl

theorem GetUserState_stored (userStates : Store) (userID : String) (now : Int) :
    (GetUserState userStates userID now).2 userID
      = some (GetUserState userStates userID now).1 := by
  unfold GetUserState
  cases h : userStates userID with
  | none => exact setUserState_self _ _ _
  | some state => exact h

theorem ClearUserState_self (userStates : Store) (userID : String) :
    ClearUserState userStates userID userID = none := by
  simp [ClearUserState]

theorem ClearUserState_other (userStates : Store) (userID other : String) (h : other ≠ userID) :
    ClearUserState userStates userID other = userStates other := by
  simp [ClearUserState, h]

/-- The analysis never returns a nil pointer nor an error: it returns an analysis, or panics. -/
theorem AnalyzeForAppointment_result (env : Env) (message history : String) (b : Bool)
    (r : Option AppointmentAnalysis × Option String)
    (h : AnalyzeForAppointment env message history b = some r) :
    ∃ analysis, r = (some analysis, none) := by
  unfold AnalyzeForAppointment at h
  split at h
  · exact ⟨_, (Option.some.inj h).symm⟩
  · dsimp only at h
    split at h
    · exact ⟨_, (Option.some.inj h).symm⟩
    · exact ⟨_, (Option.some.inj h).symm⟩
    · split at h
      · split at h
        · exact absurd h (by simp)
        · split at h
          · exact ⟨_, (Option.some.inj h).symm⟩
          · exact ⟨_, (Option.some.inj h).symm⟩
      · exact ⟨_, (Option.some.inj h).symm⟩

/-- With a new session, `processNewMessage` starts the booking flow or answers normally. -/
theorem processNewMessage_cases (env : Env) (message userID userName : String)
    (state : UserState) (r : String × UserState)
    (h : processNewMessage env message userID userName state = some r) :
    ∃ analysis, Analysed env analysis ∧
      r = if analysis.WantsToSchedule then
            startAppointmentFlow env state analysis message userName
          else handleNormalConversation env message userName state := by
  unfold processNewMessage at h
  cases ha : AnalyzeForAppointment env message (joinHistory state.ConversationHistory) false with
  | none => rw [ha] at h; exact absurd h (by simp)
  | some res =>
    obtain ⟨analysis, hres⟩ := AnalyzeForAppointment_result _ _ _ _ _ ha
    subst hres
    rw [ha] at h
    dsimp only at h
    refine ⟨analysis, ⟨_, _, _, ha⟩, ?_⟩
    split at h
    · rename_i hw
      rw [if_pos hw]
      exact (Option.some.inj h).symm
    · rename_i hw
      rw [if_neg hw]
      exact (Option.some.inj h).symm

/-- What one call of `ProcessMessage` that returns does to the store: the sessions of the other
users are untouched, and the session of the user is either the stored one with a new time
stamp (message ignored), or the outcome of a flow on a new session (reset), or the outcome of a
flow on the stored session. -/
theorem ProcessMessage_cases (env : Env) (userStates userStates' : Store)
    (message userID userName reply : String)
    (h : ProcessMessage env userStates message userID userName = some (reply, userStates')) :
    (∀ other, other ≠ userID → userStates' other = userStates other) ∧
    ∃ state', userStates' userID = some state' ∧
      (((GetUserState userStates userID env.nowCreate).1.AppointmentSaved = true ∧
          sub64 env.nowGuard env.nowStamp < 5 ∧ reply = "" ∧
          state' = { (GetUserState userStates userID env.nowCreate).1 with
                      LastMessageTime := env.nowStamp }) ∨
        ((GetUserState userStates userID env.nowCreate).1.AppointmentSaved = true ∧
          ¬ sub64 env.nowGuard env.nowStamp < 5 ∧
          ∃ analysis, Analysed env analysis ∧
            (reply, state') =
              if analysis.WantsToSchedule then
                startAppointmentFlow env
                  { freshState env.nowReset with ConversationHistory := ["Usuario: " ++ message] }
                  analysis message userName
              else
                handleNormalConversation env message userName
                  { freshState env.nowReset with
                    ConversationHistory := ["Usuario: " ++ message] }) ∨
        ((GetUserState userStates userID env.nowCreate).1.AppointmentSaved = false ∧
          ∃ analysis,
            AnalyzeForAppointment env message
              (joinHistory (withUserTurn env (GetUserState userStates userID env.nowCreate).1
                message).ConversationHistory)
              (GetUserState userStates userID env.nowCreate).1.IsScheduling
                = some (some analysis, none) ∧
            (reply, state') =
              if analysis.WantsToSchedule
                  && !(GetUserState userStates userID env.nowCreate).1.IsScheduling then
                startAppointmentFlow env
                  (withUserTurn env (GetUserState userStates userID env.nowCreate).1 message)
                  analysis message userName
              else if (GetUserState userStates userID env.nowCreate).1.IsScheduling then
                continueAppointmentFlow env
                  (withUserTurn env (GetUserState userStates userID env.nowCreate).1 message)
                  analysis message userID userName
              else
                handleNormalConversation env message userName
                  (withUserTurn env (GetUserState userStates userID env.nowCreate).1 message))) := by
  have hframe := GetUserState_other userStates userID
  cases hs : (GetUserState userStates userID env.nowCreate).1.AppointmentSaved with
  | false =>
    cases ha : AnalyzeForAppointment env message
        (joinHistory (withUserTurn env (GetUserState userStates userID env.nowCreate).1
          message).ConversationHistory)
        (GetUserState userStates userID env.nowCreate).1.IsScheduling with
    | none =>
      exfalso
      unfold ProcessMessage at h
      simp only [withUserTurn] at ha
      simp only [hs, ha, Bool.false_eq_true, false_and, if_false] at h
      exact absurd h (by simp)
    | some res =>
      obtain ⟨analysis, hres⟩ := AnalyzeForAppointment_result _ _ _ _ _ ha
      subst hres
      rw [ProcessMessage_of_not_saved env userStates message userID userName analysis hs ha] at h
      have h' := Option.some.inj h
      have h1 := congrArg Prod.fst h'
      have h2 := congrArg Prod.snd h'
      dsimp only at h1 h2
      constructor
      · intro other hne
        rw [← h2, setUserState_of_ne _ _ _ _ hne]
        exact hframe other _ hne
      · refine ⟨_, by rw [← h2]; exact setUserState_self _ _ _, Or.inr (Or.inr ⟨rfl, analysis, rfl, ?_⟩)⟩
        rw [← h1]
  | true =>
    unfold ProcessMessage at h
    have hframe' := fun other => hframe other env.nowCreate
    generalize GetUserState userStates userID env.nowCreate = g at h hs hframe' ⊢
    obtain ⟨st, store⟩ := g
    dsimp only at h hs hframe' ⊢
    by_cases hlt : sub64 env.nowGuard env.nowStamp < 5
    · rw [if_pos (show _ ∧ _ from ⟨hs, hlt⟩)] at h
      have h' := Option.some.inj h
      have h1 := congrArg Prod.fst h'
      have h2 := congrArg Prod.snd h'
      dsimp only at h1 h2
      constructor
      · intro other hne
        rw [← h2, setUserState_of_ne _ _ _ _ hne]
        exact hframe' other hne
      · exact ⟨_, by rw [← h2]; exact setUserState_self _ _ _, Or.inl ⟨rfl, hlt, h1.symm, rfl⟩⟩
    · rw [if_neg (show ¬ (_ ∧ _) from fun hc => hlt hc.2), if_pos hs] at h
      rw [GetUserState_of_none _ _ _ (ClearUserState_self _ _)] at h
      dsimp only at h
      cases hp : processNewMessage env message userID userName
          { freshState env.nowReset with
            ConversationHistory := (freshState env.nowReset).ConversationHistory
              ++ ["Usuario: " ++ message] } with
      | none => rw [hp] at h; exact absurd h (by simp)
      | some r =>
        rw [hp] at h
        have h' := Option.some.inj h
        have h1 := congrArg Prod.fst h'
        have h2 := congrArg Prod.snd h'
        dsimp only at h1 h2
        obtain ⟨analysis, han, hr⟩ := processNewMessage_cases _ _ _ _ _ _ hp
        constructor
        · intro other hne
          rw [← h2, setUserState_of_ne _ _ _ _ hne, setUserState_of_ne _ _ _ _ hne,
            ClearUserState_other _ _ _ hne]
          exact hframe' other hne
        · refine ⟨r.2, by rw [← h2]; exact setUserState_self _ _ _,
            Or.inr (Or.inl ⟨rfl, hlt, analysis, han, ?_⟩)⟩
          rw [← h1]
          exact hr

/-! ## C6: silence -/

theorem append_eq_empty (s t : String) (h : s ++ t = "") : s = "" ∧ t = "" := by
  have hd : (s ++ t).data = [] := by rw [h]
  rw [String.data_append] at hd
  obtain ⟨h1, h2⟩ := List.append_eq_nil.mp hd
  exact ⟨String.ext h1, String.ext h2⟩

theorem append_ne_empty_right (s t : String) (h : t ≠ "") : s ++ t ≠ "" :=
  fun e => h (append_eq_empty s t e).2

/-- The function `Chat` never returns the empty string together with a nil error. -/
theorem Chat_reply_ne_empty (env : Env) (promptContext userMessage history : String)
    (h : (Chat env promptContext userMessage history).2 = none) :
    (Chat env promptContext userMessage history).1 ≠ "" := by
  unfold Chat at h ⊢
  split
  · rename_i hc
    rw [hc] at h
    exact absurd h (by simp)
  · rename_i client hc
    rw [hc] at h
    dsimp only at h ⊢
    split
    · rename_i hg
      rw [hg] at h
      exact absurd h (by simp)
    · decide
    · split
      · decide
      · rename_i hne
        exact hne

theorem Chat_reply_ne_empty_of_eq (env : Env) (promptContext userMessage history : String)
    (response : String)
    (h : Chat env promptContext userMessage history = (response, none)) : response ≠ "" := by
  have := Chat_reply_ne_empty env promptContext userMessage history (by rw [h])
  rw [h] at this
  exact this

theorem saveAppointment_reply_ne_empty (env : Env) (state : UserState)
    (userID userName : String) : (saveAppointment env state userID userName).1 ≠ "" := by
  obtain ⟨_, linkLine, hreply⟩ := saveAppointment_result env state userID userName
  rw [hreply]
  exact append_ne_empty_right _ _ (by decide)

theorem handleNormalConversation_reply_ne_empty (env : Env) (message userName : String)
    (state : UserState) : (handleNormalConversation env message userName state).1 ≠ "" := by
  unfold handleNormalConversation
  dsimp only
  split
  · split
    · exact append_ne_empty_right _ _ (by decide)
    · show ("Lo siento, no entendí tu mensaje. ¿Puedes repetirlo?" : String) ≠ ""
      decide
  · rename_i response hc
    exact Chat_reply_ne_empty_of_eq _ _ _ _ _ hc

theorem startAppointmentFlow_reply_ne_empty (env : Env) (state : UserState)
    (analysis : AppointmentAnalysis) (message userName : String) :
    (startAppointmentFlow env state analysis message userName).1 ≠ "" := by
  unfold startAppointmentFlow
  dsimp only
  split
  · show ("¡Perfecto! Vamos a agendar tu cita. Por favor, dime tu nombre completo:" : String)
      ≠ ""
    decide
  · rename_i response hc
    exact Chat_reply_ne_empty_of_eq _ _ _ _ _ hc

theorem continueAppointmentFlow_reply_ne_empty (env : Env) (state : UserState)
    (analysis : AppointmentAnalysis) (message userID userName : String) :
    (continueAppointmentFlow env state analysis message userID userName).1 ≠ "" := by
  unfold continueAppointmentFlow
  dsimp only
  split
  · split
    · exact append_ne_empty_right _ _ (by decide)
    · rename_i response hc
      exact Chat_reply_ne_empty_of_eq _ _ _ _ _ hc
  · exact saveAppointment_reply_ne_empty _ _ _ _

/-- What holds of silence. Whatever the session, the message and the behaviour of the
collaborators, `ProcessMessage` returns the empty string if and only if the session has
`AppointmentSaved = true` when the message arrives and the elapsed time computed by the guard
(the reading of line 114 minus the time stamp written at line 105) is below 5. For a session
with `AppointmentSaved = false`, in the runs in which the analysis returns (with the model's
answer or with the fallback), `ProcessMessage` returns a reply and the reply is not empty; in
the other runs it returns nothing. `Chat` never returns an empty string together with a nil
error, which is the third part. -/
theorem silence_iff_saved_within_window (env : Env) (userStates : Store)
    (message userID userName : String) :
    ((∃ userStates', ProcessMessage env userStates message userID userName
          = some ("", userStates')) ↔
      ((GetUserState userStates userID env.nowCreate).1.AppointmentSaved = true ∧
        sub64 env.nowGuard env.nowStamp < 5)) ∧
    ((GetUserState userStates userID env.nowCreate).1.AppointmentSaved = false →
      AnalyzeForAppointment env message
          (joinHistory ((GetUserState userStates userID env.nowCreate).1.ConversationHistory
            ++ ["Usuario: " ++ message]))
          (GetUserState userStates userID env.nowCreate).1.IsScheduling ≠ none →
      ∃ reply userStates', ProcessMessage env userStates message userID userName
          = some (reply, userStates') ∧ reply ≠ "") ∧
    (∀ promptContext userMessage history : String,
      (Chat env promptContext userMessage history).2 = none →
        (Chat env promptContext userMessage history).1 ≠ "") := by
  have hflow : ∀ (analysis : AppointmentAnalysis) (b c : Bool) (s1 s2 s3 : UserState),
      (if b then startAppointmentFlow env s1 analysis message userName
        else if c then continueAppointmentFlow env s2 analysis message userID userName
        else handleNormalConversation env message userName s3).1 ≠ "" := by
    intro analysis b c s1 s2 s3
    split
    · exact startAppointmentFlow_reply_ne_empty _ _ _ _ _
    · split
      · exact continueAppointmentFlow_reply_ne_empty _ _ _ _ _ _
      · exact handleNormalConversation_reply_ne_empty _ _ _ _
  refine ⟨⟨?_, ?_⟩, ?_, fun p m h => Chat_reply_ne_empty env p m h⟩
  · rintro ⟨userStates', h⟩
    obtain ⟨_, state', _, hcase⟩ := ProcessMessage_cases _ _ _ _ _ _ _ h
    rcases hcase with ⟨hs, hlt, _, _⟩ | ⟨_, _, analysis, _, heq⟩ | ⟨_, analysis, _, heq⟩
    · exact ⟨hs, hlt⟩
    · exfalso
      have h1 := congrArg Prod.fst heq
      dsimp only at h1
      have := hflow analysis analysis.WantsToSchedule false
        { freshState env.nowReset with ConversationHistory := ["Usuario: " ++ message] }
        { freshState env.nowReset with ConversationHistory := ["Usuario: " ++ message] }
        { freshState env.nowReset with ConversationHistory := ["Usuario: " ++ message] }
      simp only [Bool.false_eq_true, if_false] at this
      exact this h1.symm
    · exfalso
      have h1 := congrArg Prod.fst heq
      dsimp only at h1
      exact hflow analysis _ _ _ _ _ h1.symm
  · rintro ⟨hs, hlt⟩
    unfold ProcessMessage
    generalize GetUserState userStates userID env.nowCreate = g at hs ⊢
    obtain ⟨st, store⟩ := g
    dsimp only at hs ⊢
    rw [if_pos (show _ ∧ _ from ⟨hs, hlt⟩)]
    exact ⟨_, rfl⟩
  · intro hs ha
    cases hres : AnalyzeForAppointment env message
          (joinHistory ((GetUserState userStates userID env.nowCreate).1.ConversationHistory
            ++ ["Usuario: " ++ message]))
          (GetUserState userStates userID env.nowCreate).1.IsScheduling with
    | none => exact absurd hres ha
    | some res =>
      obtain ⟨analysis, hr⟩ := AnalyzeForAppointment_result _ _ _ _ _ hres
      subst hr
      exact ⟨_, _, ProcessMessage_of_not_saved env userStates message userID userName analysis
        hs hres, hflow analysis _ _ _ _ _⟩

/-- Two runs: a saved session inside the window gets no reply, and a new user gets a reply
that is not empty, here without Gemini and with every helper failing. -/
theorem silence_iff_saved_within_window_witness :
    (∃ userStates', ProcessMessage (offlineEnv 1010) (singleStore "5215550004" savedSession)
        "hola" "5215550004" "Ana" = some ("", userStates')) ∧
    (∃ reply userStates', ProcessMessage (offlineEnv 1010) emptyStore "hola" "5215550006" "Eva"
        = some (reply, userStates') ∧ reply ≠ "") :=
  ⟨(silence_iff_saved_within_window (offlineEnv 1010) (singleStore "5215550004" savedSession)
      "hola" "5215550004" "Ana").1.2 ⟨rfl, by decide⟩,
    (silence_iff_saved_within_window (offlineEnv 1010) emptyStore "hola" "5215550006"
      "Eva").2.1 rfl (by simp [AnalyzeForAppointment, offlineEnv])⟩

/-- When the analysis does not return: exactly when Gemini answers with a text whose last
closing brace comes more than one place before its first opening brace. -/
theorem AnalyzeForAppointment_eq_none_iff (env : Env) (message history : String) (b : Bool) :
    AnalyzeForAppointment env message history b = none ↔
      ∃ client responseText jsonStart jsonEnd,
        env.geminiClient = some client ∧
        client.GenerateContent
          (APPOINTMENT_ANALYSIS_PROMPT ++ "\n\nHISTORIAL:\n" ++ history ++ "\n\nMENSAJE: \""
            ++ message ++ "\"\n\n¿YA ESTÁ AGENDANDO?: " ++ fmtBool b) = .parts responseText ∧
        indexChar '{' responseText.data = some jsonStart ∧
        lastIndexChar '}' responseText.data = some jsonEnd ∧
        jsonEnd + 1 < jsonStart := by
  unfold AnalyzeForAppointment
  constructor
  · intro h
    split at h
    · exact absurd h (by simp)
    · rename_i client hc
      dsimp only at h
      split at h
      · exact absurd h (by simp)
      · exact absurd h (by simp)
      · rename_i responseText hg
        split at h
        · rename_i jsonStart jsonEnd hs he
          split at h
          · rename_i hlt
            exact ⟨client, responseText, jsonStart, jsonEnd, hc, hg, hs, he, hlt⟩
          · split at h <;> exact absurd h (by simp)
        · exact absurd h (by simp)
  · rintro ⟨client, responseText, jsonStart, jsonEnd, hc, hg, hs, he, hlt⟩
    rw [hc]
    dsimp only
    rw [hg]
    dsimp only
    rw [hs, he]
    dsimp only
    rw [if_pos hlt]

/-- C6. Silence outside the debounce window. A new user, whose session is created with
`AppointmentSaved = false`, writes `hola` while Gemini answers the analysis request with a
closing brace, a blank and an opening brace. The first opening brace is at position 2 and the
last closing brace at position 0, neither is missing, so line 162 of `gemini.go` lets the
answer through and the slice expression of line 167 panics: `AnalyzeForAppointment` does not
return and `ProcessMessage` returns nothing, neither the empty string nor a reply. -/
theorem unsaved_session_gets_no_reply_when_slice_panics :
    emptyStore "5215550008" = none ∧
    (GetUserState emptyStore "5215550008" reversedBracesEnv.nowCreate).1.AppointmentSaved
      = false ∧
    indexChar '{' ("\x7d \x7b" : String).data = some 2 ∧
    lastIndexChar '}' ("\x7d \x7b" : String).data = some 0 ∧
    AnalyzeForAppointment reversedBracesEnv "hola" (joinHistory ["Usuario: hola"]) false
      = none ∧
    ProcessMessage reversedBracesEnv emptyStore "hola" "5215550008" "Eva" = none :=
  ⟨rfl, rfl, rfl, rfl, rfl, rfl⟩

/-! ## Invariants of the reachable stores -/

theorem GetUserState_fst (userStates : Store) (userID : String) (now : Int) :
    userStates userID = some (GetUserState userStates userID now).1 ∨
      (GetUserState userStates userID now).1 = freshState now := by
  unfold GetUserState
  cases h : userStates userID with
  | none => exact Or.inr rfl
  | some state => exact Or.inl rfl

/-- A property of sessions that holds for new sessions and is kept by the three flows holds
for every session after one call of `ProcessMessage`. -/
theorem ProcessMessage_preserves (I : UserState → Prop) (A : AppointmentAnalysis → Prop)
    (env : Env) (hA : ∀ analysis, Analysed env analysis → A analysis)
    (hfresh : ∀ now, I (freshState now))
    (hmeta : ∀ (state : UserState) (t : Int) (history : List String), I state →
      I { state with LastMessageTime := t, ConversationHistory := history })
    (hstart : ∀ state analysis message userName, A analysis → I state →
      I (startAppointmentFlow env state analysis message userName).2)
    (hcont : ∀ state analysis message userID userName, A analysis → I state →
      state.IsScheduling = true →
      I (continueAppointmentFlow env state analysis message userID userName).2)
    (hnormal : ∀ state message userName, I state →
      I (handleNormalConversation env message userName state).2)
    (userStates userStates' : Store) (message userID userName reply : String)
    (hI : ∀ other state, userStates other = some state → I state)
    (h : ProcessMessage env userStates message userID userName = some (reply, userStates')) :
    ∀ other state, userStates' other = some state → I state := by
  obtain ⟨hframe, state', hstored, hcase⟩ := ProcessMessage_cases _ _ _ _ _ _ _ h
  have hst : I (GetUserState userStates userID env.nowCreate).1 := by
    rcases GetUserState_fst userStates userID env.nowCreate with h1 | h1
    · exact hI _ _ h1
    · rw [h1]; exact hfresh _
  have hturn : I (withUserTurn env (GetUserState userStates userID env.nowCreate).1 message) :=
    hmeta _ _ _ hst
  have hnew : I { freshState env.nowReset with
      ConversationHistory := ["Usuario: " ++ message] } :=
    hmeta _ (freshState env.nowReset).LastMessageTime _ (hfresh env.nowReset)
  intro other state hos
  by_cases hne : other = userID
  · subst hne
    rw [hstored] at hos
    have hstate : state' = state := Option.some.inj hos
    subst hstate
    rcases hcase with ⟨_, _, _, heq⟩ | ⟨_, _, analysis, han, heq⟩ | ⟨_, analysis, han, heq⟩
    · rw [heq]
      exact hmeta _ env.nowStamp
        (GetUserState userStates other env.nowCreate).1.ConversationHistory hst
    · have h2 := congrArg Prod.snd heq
      dsimp only at h2
      rw [h2]
      split
      · exact hstart _ _ _ _ (hA _ han) hnew
      · exact hnormal _ _ _ hnew
    · have h2 := congrArg Prod.snd heq
      dsimp only at h2
      rw [h2]
      split
      · exact hstart _ _ _ _ (hA _ ⟨_, _, _, han⟩) hturn
      · split
        · rename_i hsched
          exact hcont _ _ _ _ _ (hA _ ⟨_, _, _, han⟩) hturn hsched
        · exact hnormal _ _ _ hturn
  · rw [hframe other hne] at hos
    exact hI _ _ hos

/-- A property of sessions that holds for new sessions and is kept by the three flows holds
for every session of every reachable store. -/
theorem ReachableVia_invariant (P : Env → Prop) (I : UserState → Prop)
    (A : AppointmentAnalysis → Prop)
    (hA : ∀ env analysis, P env → Analysed env analysis → A analysis)
    (hfresh : ∀ now, I (freshState now))
    (hmeta : ∀ (state : UserState) (t : Int) (history : List String), I state →
      I { state with LastMessageTime := t, ConversationHistory := history })
    (hstart : ∀ env state analysis message userName, A analysis → I state →
      I (startAppointmentFlow env state analysis message userName).2)
    (hcont : ∀ env state analysis message userID userName, A analysis → I state →
      state.IsScheduling = true →
      I (continueAppointmentFlow env state analysis message userID userName).2)
    (hnormal : ∀ env state message userName, I state →
      I (handleNormalConversation env message userName state).2)
    (userStates : Store) (hreach : ReachableVia P userStates) :
    ∀ userID state, userStates userID = some state → I state := by
  induction hreach with
  | init => intro userID state h; exact absurd h (by simp [emptyStore])
  | get userStates userID now _ ih =>
    intro other state h
    by_cases hne : other = userID
    · subst hne
      rw [GetUserState_stored] at h
      rw [← Option.some.inj h]
      rcases GetUserState_fst userStates other now with h1 | h1
      · exact ih _ _ h1
      · rw [h1]; exact hfresh _
    · rw [GetUserState_other _ _ _ _ hne] at h
      exact ih _ _ h
  | clear userStates userID _ ih =>
    intro other state h
    by_cases hne : other = userID
    · subst hne
      rw [ClearUserState_self] at h
      exact absurd h (by simp)
    · rw [ClearUserState_other _ _ _ hne] at h
      exact ih _ _ h
  | process env userStates userStates' message userID userName reply _ hP hpm ih =>
    exact ProcessMessage_preserves I A env (fun a ha => hA env a hP ha) hfresh hmeta
      (hstart env) (hcont env) (hnormal env) _ _ _ _ _ _ ih hpm

theorem afterMessage_reachable (P : Env → Prop) (env : Env) (userStates : Store)
    (message userID userName : String) (hP : P env) (h : ReachableVia P userStates) :
    ReachableVia P (afterMessage env userStates message userID userName) := by
  unfold afterMessage
  cases hpm : ProcessMessage env userStates message userID userName with
  | none => exact h
  | some r => exact ReachableVia.process env userStates r.2 message userID userName r.1 h hP hpm

theorem decodesOnlySlots_geminiEnv (now : Int) (json : String)
    (analysis : AppointmentAnalysis) (reply : String)
    (h : ∀ extracted, analysis.ExtractedData = some extracted →
      ∀ key ∈ extracted.keys, key ∈ requiredSlots) :
    DecodesOnlySlots (geminiEnv now json analysis reply) := by
  intro jsonStr analysis' extracted hu
  have hu' : (if jsonStr = json then some analysis else none) = some analysis' := hu
  split at hu'
  · rw [← Option.some.inj hu']
    exact h extracted
  · exact absurd hu' (by simp)

theorem savedStore_reachable (P : Env → Prop)
    (h1 : P envFull) (h2 : P (envNothing 1010)) :
    ReachableVia P savedStore :=
  afterMessage_reachable P _ _ _ _ _ h2
    (afterMessage_reachable P _ _ _ _ _ h1 ReachableVia.init)

/-! ## C7: the two flags -/

theorem continueAppointmentFlow_scheduling (env : Env) (state : UserState)
    (analysis : AppointmentAnalysis) (message userID userName : String) :
    (continueAppointmentFlow env state analysis message userID userName).2.IsScheduling
      = state.IsScheduling := by
  unfold continueAppointmentFlow
  cases analysis.ExtractedData <;> dsimp only <;> split <;> first | rfl | (split <;> rfl)

theorem handleNormalConversation_state (env : Env) (message userName : String)
    (state : UserState) :
    (handleNormalConversation env message userName state).2.IsScheduling = state.IsScheduling ∧
    (handleNormalConversation env message userName state).2.AppointmentSaved
      = state.AppointmentSaved ∧
    (handleNormalConversation env message userName state).2.Data = state.Data := by
  unfold handleNormalConversation
  dsimp only
  split
  · split <;> exact ⟨rfl, rfl, rfl⟩
  · exact ⟨rfl, rfl, rfl⟩

/-- C7, as the code has it. In every store reachable from the empty store by calls of
`GetUserState`, `ClearUserState` and `ProcessMessage`, whatever the messages and the
collaborators, a session with `AppointmentSaved = true` has `IsScheduling = true`:
`saveAppointment` sets `AppointmentSaved` on a session in Booking and nothing clears
`IsScheduling`. So the two flags are both true in every saved session, and a session with
`IsScheduling = false` has `AppointmentSaved = false`. -/
theorem saved_implies_scheduling (userStates : Store) (hreach : Reachable userStates)
    (userID : String) (state : UserState) (hstate : userStates userID = some state)
    (hsaved : state.AppointmentSaved = true) : state.IsScheduling = true := by
  refine ReachableVia_invariant (fun _ => True)
    (fun state => state.AppointmentSaved = true → state.IsScheduling = true) (fun _ => True)
    (fun _ _ _ _ => trivial) ?_ ?_ ?_ ?_ ?_ userStates hreach userID state hstate hsaved
  · intro now h
    exact absurd h (by simp [freshState])
  · intro state t history h
    exact h
  · intro env state analysis message userName _ _ _
    exact (startAppointmentFlow_flags env state analysis message userName).1
  · intro env state analysis message userID userName _ _ hsched _
    rw [continueAppointmentFlow_scheduling]
    exact hsched
  · intro env state message userName h
    obtain ⟨h1, h2, _⟩ := handleNormalConversation_state env message userName state
    rw [h1, h2]
    exact h

set_option maxRecDepth 8000 in
/-- Instance of C7 as the code has it, on the store in which a user has completed a
booking. -/
theorem saved_implies_scheduling_witness :
    Reachable savedStore ∧
    (savedStore "5215550005").map (fun state => state.AppointmentSaved) = some true ∧
    ∀ state, savedStore "5215550005" = some state → state.AppointmentSaved = true →
      state.IsScheduling = true :=
  ⟨savedStore_reachable _ trivial trivial, rfl, fun state h hs =>
    saved_implies_scheduling savedStore (savedStore_reachable _ trivial trivial)
      "5215550005" state h hs⟩

set_option maxRecDepth 8000 in
/-- C7 as stated fails: after a first message from which the analysis extracts the five slots
and a second message from the same user, the stored session has `IsScheduling = true` and
`AppointmentSaved = true` at the same time. -/
theorem scheduling_and_saved_both_true :
    Reachable savedStore ∧
    (savedStore "5215550005").map (fun state => (state.IsScheduling, state.AppointmentSaved))
      = some (true, true) :=
  ⟨savedStore_reachable _ trivial trivial, rfl⟩

/-! ## C8: the keys of the slot map -/

theorem fallbackAnalysis_extracted (env : Env) (message : String) :
    (fallbackAnalysis env message).ExtractedData = some GoMap.empty := rfl

/-- An analysis that is returned is the fallback analysis or what the decoder produced, its
nil map replaced by an empty one. -/
theorem AnalyzeForAppointment_origin (env : Env) (message history : String) (b : Bool)
    (analysis : AppointmentAnalysis)
    (h : AnalyzeForAppointment env message history b = some (some analysis, none)) :
    analysis = fallbackAnalysis env message ∨
    ∃ jsonStr decoded, env.Unmarshal jsonStr = some decoded ∧
      analysis = match decoded.ExtractedData with
        | none => { decoded with ExtractedData := some GoMap.empty }
        | some _ => decoded := by
  have key : ∀ a : AppointmentAnalysis,
      (some (some a, (none : Option String)) : Option (Option AppointmentAnalysis × Option String))
        = some (some analysis, none) → analysis = a := by
    intro a e
    have := Option.some.inj e
    exact (Option.some.inj (congrArg Prod.fst this)).symm
  unfold AnalyzeForAppointment at h
  split at h
  · exact Or.inl (key _ h)
  · dsimp only at h
    split at h
    · exact Or.inl (key _ h)
    · exact Or.inl (key _ h)
    · split at h
      · split at h
        · exact absurd h (by simp)
        · split at h
          · exact Or.inl (key _ h)
          · rename_i decoded hu
            exact Or.inr ⟨_, decoded, hu, key _ h⟩
      · exact Or.inl (key _ h)

theorem Analysed_keys (env : Env) (analysis : AppointmentAnalysis) (henv : DecodesOnlySlots env)
    (h : Analysed env analysis) :
    ∀ extracted, analysis.ExtractedData = some extracted →
      ∀ key ∈ extracted.keys, key ∈ requiredSlots := by
  obtain ⟨message, history, b, h⟩ := h
  intro extracted he key hkey
  rcases AnalyzeForAppointment_origin _ _ _ _ _ h with h1 | ⟨jsonStr, decoded, hu, h1⟩
  · rw [h1, fallbackAnalysis_extracted] at he
    rw [← Option.some.inj he] at hkey
    exact absurd hkey (by simp [GoMap.keys, GoMap.empty])
  · cases hd : decoded.ExtractedData with
    | none =>
      rw [hd] at h1
      rw [h1] at he
      dsimp only at he
      rw [← Option.some.inj he] at hkey
      exact absurd hkey (by simp [GoMap.keys, GoMap.empty])
    | some m =>
      rw [hd] at h1
      dsimp only at h1
      rw [h1] at he
      exact henv jsonStr decoded extracted hu he key hkey

theorem set_keeps_keys (K : String → Prop) (data : GoMap) (k v : String)
    (hd : ∀ key ∈ data.keys, K key ∧ data.get key ≠ "" ∧ data.get key ≠ "null")
    (hk : K k) (hv : v ≠ "") (hn : v ≠ "null") :
    ∀ key ∈ (data.set k v).keys,
      K key ∧ (data.set k v).get key ≠ "" ∧ (data.set k v).get key ≠ "null" := by
  intro key hkey
  rw [GoMap.mem_keys_set] at hkey
  rw [GoMap.get_set]
  by_cases e : key = k
  · rw [if_pos e, e]
    exact ⟨hk, hv, hn⟩
  · rw [if_neg e]
    rcases hkey with h | h
    · exact absurd h e
    · exact hd key h

theorem mergeInitial_keeps_keys (K : String → Prop) (extracted data : GoMap)
    (he : ∀ key ∈ extracted.keys, K key)
    (hd : ∀ key ∈ data.keys, K key ∧ data.get key ≠ "" ∧ data.get key ≠ "null") :
    ∀ key ∈ (mergeInitial data extracted).keys,
      K key ∧ (mergeInitial data extracted).get key ≠ ""
        ∧ (mergeInitial data extracted).get key ≠ "null" := by
  unfold mergeInitial
  have he' : ∀ p ∈ extracted.entries, K p.1 := fun p hp =>
    he p.1 (List.mem_map.mpr ⟨p, hp, rfl⟩)
  generalize extracted.entries = es at he'
  induction es generalizing data with
  | nil => exact hd
  | cons p rest ih =>
    rw [List.foldl_cons]
    apply ih
    · split
      · rename_i hc
        exact set_keeps_keys K data p.1 p.2 hd (he' p (by simp)) hc.1 hc.2
      · exact hd
    · intro q hq
      exact he' q (List.mem_cons_of_mem _ hq)

theorem mergeContinue_keeps_keys (K : String → Prop) (extracted data : GoMap)
    (he : ∀ key ∈ extracted.keys, K key)
    (hd : ∀ key ∈ data.keys, K key ∧ data.get key ≠ "" ∧ data.get key ≠ "null") :
    ∀ key ∈ (mergeContinue data extracted).keys,
      K key ∧ (mergeContinue data extracted).get key ≠ ""
        ∧ (mergeContinue data extracted).get key ≠ "null" := by
  unfold mergeContinue
  have he' : ∀ p ∈ extracted.entries, K p.1 := fun p hp =>
    he p.1 (List.mem_map.mpr ⟨p, hp, rfl⟩)
  generalize extracted.entries = es at he'
  induction es generalizing data with
  | nil => exact hd
  | cons p rest ih =>
    rw [List.foldl_cons]
    apply ih
    · split
      · rename_i hc
        exact set_keeps_keys K data p.1 p.2 hd (he' p (by simp)) hc.1 hc.2.1
      · exact hd
    · intro q hq
      exact he' q (List.mem_cons_of_mem _ hq)

/-- The keys of every session of a reachable store satisfy `K` and hold a value that is
neither empty nor `"null"`, when the keys of every analysis satisfy `K`. -/
theorem reachable_keys (P : Env → Prop) (K : String → Prop)
    (hK : ∀ env analysis, P env → Analysed env analysis →
      ∀ extracted, analysis.ExtractedData = some extracted → ∀ key ∈ extracted.keys, K key)
    (userStates : Store) (hreach : ReachableVia P userStates)
    (userID : String) (state : UserState) (hstate : userStates userID = some state) :
    ∀ key ∈ state.Data.keys, K key ∧ state.Data.get key ≠ "" ∧ state.Data.get key ≠ "null" := by
  refine ReachableVia_invariant P
    (fun state => ∀ key ∈ state.Data.keys,
      K key ∧ state.Data.get key ≠ "" ∧ state.Data.get key ≠ "null")
    (fun analysis => ∀ extracted, analysis.ExtractedData = some extracted →
      ∀ key ∈ extracted.keys, K key)
    hK ?_ ?_ ?_ ?_ ?_ userStates hreach userID state hstate
  · intro now key hkey
    exact absurd hkey (by simp [freshState, GoMap.keys, GoMap.empty])
  · intro state t history h
    exact h
  · intro env state analysis message userName hA h
    rw [startAppointmentFlow_data]
    cases hE : analysis.ExtractedData with
    | none => exact h
    | some extracted => exact mergeInitial_keeps_keys K extracted _ (hA extracted hE) h
  · intro env state analysis message userID userName hA h _
    rw [continueAppointmentFlow_data]
    cases hE : analysis.ExtractedData with
    | none => exact h
    | some extracted => exact mergeContinue_keeps_keys K extracted _ (hA extracted hE) h
  · intro env state message userName h
    rw [(handleNormalConversation_state env message userName state).2.2]
    exact h

/-- C8, as the code has it. The key set of `Data` is the set of slots collected so far, not a
fixed set. In every store reachable from the empty store by calls of `GetUserState`,
`ClearUserState` and `ProcessMessage` in worlds satisfying `P`, a key is present in `Data` if and
only if its value is non-empty, and no value is `"null"`; and when the JSON decoder of those
worlds yields no key outside the five slot names, the keys present are exactly the names among
`nombre`, `servicio`, `barbero`, `fecha`, `hora` whose slot is filled. -/
theorem data_keys_are_the_filled_slots (P : Env → Prop) (userStates : Store)
    (hreach : ReachableVia P userStates) (userID : String) (state : UserState)
    (hstate : userStates userID = some state) :
    (∀ key, key ∈ state.Data.keys ↔ state.Data.get key ≠ "") ∧
    (∀ key, state.Data.get key ≠ "null") ∧
    ((∀ env, P env → DecodesOnlySlots env) →
      ∀ key, key ∈ state.Data.keys ↔ key ∈ requiredSlots ∧ state.Data.get key ≠ "") := by
  have hval := reachable_keys P (fun _ => True) (fun _ _ _ _ _ _ _ _ => trivial) userStates
    hreach userID state hstate
  have hiff : ∀ key, key ∈ state.Data.keys ↔ state.Data.get key ≠ "" := by
    intro key
    constructor
    · intro h; exact (hval key h).2.1
    · intro h
      by_contra hn
      exact h (GoMap.get_of_not_mem_keys _ _ hn)
  refine ⟨hiff, ?_, ?_⟩
  · intro key
    by_cases hk : key ∈ state.Data.keys
    · exact (hval key hk).2.2
    · rw [GoMap.get_of_not_mem_keys _ _ hk]
      decide
  · intro hP key
    have hsub := reachable_keys P (fun key => key ∈ requiredSlots)
      (fun env analysis hp ha => Analysed_keys env analysis (hP env hp) ha) userStates
      hreach userID state hstate
    constructor
    · intro h; exact ⟨(hsub key h).1, (hsub key h).2.1⟩
    · intro h; exact (hiff key).mpr h.2

set_option maxRecDepth 8000 in
/-- Instance of C8 as the code has it, on the store in which a user has completed a booking
through analyses that carry the five slot names only. -/
theorem data_keys_are_the_filled_slots_witness :
    ReachableVia DecodesOnlySlots savedStore ∧
    (savedStore "5215550005").map (fun state => state.Data.keys)
      = some ["nombre", "servicio", "barbero", "fecha", "hora"] ∧
    ∀ state, savedStore "5215550005" = some state →
      (∀ key, key ∈ state.Data.keys ↔ state.Data.get key ≠ "") ∧
      (∀ key, state.Data.get key ≠ "null") ∧
      ((∀ env, DecodesOnlySlots env → DecodesOnlySlots env) →
        ∀ key, key ∈ state.Data.keys ↔ key ∈ requiredSlots ∧ state.Data.get key ≠ "") :=
  ⟨savedStore_reachable DecodesOnlySlots
      (decodesOnlySlots_geminiEnv _ _ analysisFull _ (by
        intro extracted he
        rw [← Option.some.inj he]
        decide))
      (decodesOnlySlots_geminiEnv _ _ analysisNothing _ (by
        intro extracted he
        rw [← Option.some.inj he]
        decide)),
    rfl,
    fun state h => data_keys_are_the_filled_slots DecodesOnlySlots savedStore
      (savedStore_reachable DecodesOnlySlots
        (decodesOnlySlots_geminiEnv _ _ analysisFull _ (by
          intro extracted he
          rw [← Option.some.inj he]
          decide))
        (decodesOnlySlots_geminiEnv _ _ analysisNothing _ (by
          intro extracted he
          rw [← Option.some.inj he]
          decide)))
      "5215550005" state h⟩

set_option maxRecDepth 8000 in
/-- C8 as stated fails in both directions: the session of a user who has only sent a greeting
has no key at all, and the session of a user whose first message yields an analysis carrying a
phone number has the key `telefono`. -/
theorem data_keys_not_the_five :
    Reachable greetedStore ∧
    (greetedStore "5215550006").map (fun state => state.Data.keys) = some [] ∧
    Reachable telefonoStore ∧
    (telefonoStore "5215550007").map (fun state => state.Data.keys) = some ["telefono"] :=
  ⟨afterMessage_reachable _ _ _ _ _ _ trivial ReachableVia.init, rfl,
    afterMessage_reachable _ _ _ _ _ _ trivial ReachableVia.init, rfl⟩

/-! ## C9: the fallback analysis -/

theorem hasPrefixChars_iff (pre l : List Char) : hasPrefixChars pre l = true ↔ pre <+: l := by
  induction pre generalizing l with
  | nil => simp [hasPrefixChars]
  | cons a as ih =>
    cases l with
    | nil => simp [hasPrefixChars]
    | cons b bs =>
      simp only [hasPrefixChars, Bool.and_eq_true, decide_eq_true_eq, ih, List.cons_prefix_cons]

theorem containsChars_iff (sub l : List Char) : containsChars sub l = true ↔ sub <:+: l := by
  induction l with
  | nil =>
    rw [containsChars, hasPrefixChars_iff, List.prefix_nil, List.infix_nil]
  | cons c cs ih =>
    rw [containsChars, Bool.or_eq_true, hasPrefixChars_iff, ih, List.infix_cons_iff]

theorem foldl_found (f : String → Bool) (keywords : List String) (found : Bool) :
    keywords.foldl (fun found keyword => if found then true else f keyword) found = true
      ↔ found = true ∨ ∃ keyword ∈ keywords, f keyword = true := by
  induction keywords generalizing found with
  | nil => simp
  | cons k rest ih =>
    rw [List.foldl_cons, ih]
    cases found <;> simp

/-- C9. Fallback heuristic: `fallbackAnalysis` wants to book if and only if the lowercased
message contains one of the keywords cita, agendar, turno, reservar, corte, afeitado, barba as
a substring; its extracted data is an empty map that is not nil and its confidence is 0.6; and
`AnalyzeForAppointment` returns exactly this analysis, with a nil error, when the Gemini client
is absent. -/
theorem fallbackAnalysis_keywords (env : Env) (message : String) :
    ((fallbackAnalysis env message).WantsToSchedule = true ↔
      ∃ keyword ∈ ["cita", "agendar", "turno", "reservar", "corte", "afeitado", "barba"],
        keyword.data <:+: (env.ToLower message).data) ∧
    (∃ extracted, (fallbackAnalysis env message).ExtractedData = some extracted ∧
      extracted.entries = []) ∧
    (fallbackAnalysis env message).Confidence = 0.6 ∧
    (env.geminiClient = none → ∀ (history : String) (isCurrentlyScheduling : Bool),
      AnalyzeForAppointment env message history isCurrentlyScheduling
        = some (some (fallbackAnalysis env message), none)) := by
  refine ⟨?_, ⟨GoMap.empty, rfl, rfl⟩, rfl, ?_⟩
  · unfold fallbackAnalysis
    dsimp only
    rw [foldl_found]
    simp only [Bool.false_eq_true, false_or, strings_Contains, containsChars_iff]
  · intro h history b
    unfold AnalyzeForAppointment
    rw [h]

/-- Instance of C9 in a world without Gemini: a message that mentions a haircut in capital
letters wants to book, a greeting does not. -/
theorem fallbackAnalysis_keywords_witness :
    (offlineEnv 1000).geminiClient = none ∧
    AnalyzeForAppointment (offlineEnv 1000) "Quiero un CORTE" "" false
      = some (some (fallbackAnalysis (offlineEnv 1000) "Quiero un CORTE"), none) ∧
    (fallbackAnalysis (offlineEnv 1000) "Quiero un CORTE").WantsToSchedule = true ∧
    (fallbackAnalysis (offlineEnv 1000) "hola").WantsToSchedule = false :=
  ⟨rfl, (fallbackAnalysis_keywords (offlineEnv 1000) "Quiero un CORTE").2.2.2 rfl "" false,
    by decide, by decide⟩

/-! ## C10: the session store -/

/-- C10. Session store contract, on the sequential model of `userStates`: `GetUserState`
returns the stored session and leaves the store as it is when the user has one, and otherwise
stores and returns a new session with `IsScheduling = false`, `Step = 0`, empty `Data`, empty
`ConversationHistory` and `AppointmentSaved = false`; `ClearUserState` removes the entry of the
user, so that `GetUserState` right after it returns such a new session whatever the session of
the user was; neither operation touches the session of another user. -/
theorem session_store_contract (userStates : Store) (userID : String) (now : Int) :
    (∀ state, userStates userID = some state →
      GetUserState userStates userID now = (state, userStates)) ∧
    (userStates userID = none →
      (GetUserState userStates userID now).1 = freshState now ∧
      (GetUserState userStates userID now).2 userID = some (freshState now)) ∧
    ((freshState now).IsScheduling = false ∧ (freshState now).Step = 0 ∧
      (freshState now).Data.entries = [] ∧ (freshState now).ConversationHistory = [] ∧
      (freshState now).AppointmentSaved = false) ∧
    (∀ other, other ≠ userID → (GetUserState userStates userID now).2 other = userStates other) ∧
    ClearUserState userStates userID userID = none ∧
    (∀ other, other ≠ userID → ClearUserState userStates userID other = userStates other) ∧
    (GetUserState (ClearUserState userStates userID) userID now).1 = freshState now ∧
    (GetUserState (ClearUserState userStates userID) userID now).2 userID
      = some (freshState now) ∧
    (∀ other, other ≠ userID →
      (GetUserState (ClearUserState userStates userID) userID now).2 other
        = userStates other) := by
  refine ⟨fun state h => GetUserState_of_some _ _ _ _ h, ?_, ⟨rfl, rfl, rfl, rfl, rfl⟩,
    fun other h => GetUserState_other _ _ _ _ h, ClearUserState_self _ _,
    fun other h => ClearUserState_other _ _ _ h, ?_, ?_, ?_⟩
  · intro h
    rw [GetUserState_of_none _ _ _ h]
    exact ⟨rfl, setUserState_self _ _ _⟩
  · rw [GetUserState_of_none _ _ _ (ClearUserState_self _ _)]
  · rw [GetUserState_of_none _ _ _ (ClearUserState_self _ _)]
    exact setUserState_self _ _ _
  · intro other h
    rw [GetUserState_other _ _ _ _ h, ClearUserState_other _ _ _ h]

/-- Instance of C10 on the store that holds one saved session: the session is returned as it
is, and after `ClearUserState` the user gets a new session. -/
theorem session_store_contract_witness :
    singleStore "5215550004" savedSession "5215550004" = some savedSession ∧
    GetUserState (singleStore "5215550004" savedSession) "5215550004" 1010
      = (savedSession, singleStore "5215550004" savedSession) ∧
    (GetUserState (ClearUserState (singleStore "5215550004" savedSession) "5215550004")
      "5215550004" 1010).1 = freshState 1010 :=
  ⟨rfl,
    (session_store_contract (singleStore "5215550004" savedSession) "5215550004" 1010).1
      savedSession rfl,
    (session_store_contract (singleStore "5215550004" savedSession) "5215550004"
      1010).2.2.2.2.2.2.1⟩

/-! ## C11: the history after a message in Booking -/

/-- What `continueAppointmentFlow` does when a slot is still missing after the merge: with a
reply from `Chat` the assistant turn is appended to the history, and when `Chat` fails the
function returns its own request for the first missing slot and leaves the history as it
is. -/
theorem continueAppointmentFlow_history (env : Env) (state : UserState)
    (analysis : AppointmentAnalysis) (message userID userName first : String)
    (rest : List String)
    (hmiss : getMissingData
      (continueAppointmentFlow env state analysis message userID userName).2.Data
        = first :: rest) :
    ((Chat env
          ("Pide ÚNICAMENTE el siguiente dato: " ++ first ++ ". Datos ya recopilados: "
            ++ fmtMap (continueAppointmentFlow env state analysis message userID userName).2.Data
            ++ ". NO repitas preguntas. NO pidas teléfono. Sé breve.")
          message (joinHistory state.ConversationHistory)).2 = none →
      (continueAppointmentFlow env state analysis message userID userName).2.ConversationHistory
        = state.ConversationHistory
          ++ ["Asistente: "
            ++ (continueAppointmentFlow env state analysis message userID userName).1]) ∧
    ((Chat env
          ("Pide ÚNICAMENTE el siguiente dato: " ++ first ++ ". Datos ya recopilados: "
            ++ fmtMap (continueAppointmentFlow env state analysis message userID userName).2.Data
            ++ ". NO repitas preguntas. NO pidas teléfono. Sé breve.")
          message (joinHistory state.ConversationHistory)).2 ≠ none →
      (continueAppointmentFlow env state analysis message userID userName).1
        = "Por favor, dime tu " ++ first ++ ":" ∧
      (continueAppointmentFlow env state analysis message userID userName).2.ConversationHistory
        = state.ConversationHistory) := by
  rw [continueAppointmentFlow_data] at hmiss ⊢
  unfold continueAppointmentFlow
  revert hmiss
  cases analysis.ExtractedData with
  | none =>
    intro hmiss
    dsimp only at hmiss ⊢
    rw [hmiss]
    dsimp only
    split
    · rename_i hc
      rw [hc]
      exact ⟨fun h => absurd h (by simp), fun _ => ⟨rfl, rfl⟩⟩
    · rename_i hc
      rw [hc]
      exact ⟨fun _ => rfl, fun h => absurd rfl h⟩
  | some extracted =>
    intro hmiss
    dsimp only at hmiss ⊢
    rw [hmiss]
    dsimp only
    split
    · rename_i hc
      rw [hc]
      exact ⟨fun h => absurd h (by simp), fun _ => ⟨rfl, rfl⟩⟩
    · rename_i hc
      rw [hc]
      exact ⟨fun _ => rfl, fun h => absurd rfl h⟩

/-- One message to a stored session in Booking that still misses a slot after the merge:
`ProcessMessage` returns a reply; when `Chat` answers, the history grows by the user turn and
the assistant turn carrying that reply; when `Chat` fails, the reply is the request for the
first missing slot and the history grows by the user turn only. -/
theorem booking_history_after_message (env : Env) (userStates : Store)
    (message userID userName : String) (state : UserState) (analysis : AppointmentAnalysis)
    (first : String) (rest : List String)
    (hstate : userStates userID = some state)
    (hsched : state.IsScheduling = true) (hsaved : state.AppointmentSaved = false)
    (hanalysis : AnalyzeForAppointment env message
      (joinHistory (state.ConversationHistory ++ ["Usuario: " ++ message])) true
        = some (some analysis, none))
    (hmiss : getMissingData
      (match analysis.ExtractedData with
        | some extracted => mergeContinue state.Data extracted
        | none => state.Data) = first :: rest) :
    ∃ reply userStates' state',
      ProcessMessage env userStates message userID userName = some (reply, userStates') ∧
      userStates' userID = some state' ∧
      ((Chat env
            ("Pide ÚNICAMENTE el siguiente dato: " ++ first ++ ". Datos ya recopilados: "
              ++ fmtMap
                (match analysis.ExtractedData with
                  | some extracted => mergeContinue state.Data extracted
                  | none => state.Data)
              ++ ". NO repitas preguntas. NO pidas teléfono. Sé breve.")
            message (joinHistory (state.ConversationHistory ++ ["Usuario: " ++ message]))).2
          = none →
        state'.ConversationHistory
          = state.ConversationHistory ++ ["Usuario: " ++ message, "Asistente: " ++ reply]) ∧
      ((Chat env
            ("Pide ÚNICAMENTE el siguiente dato: " ++ first ++ ". Datos ya recopilados: "
              ++ fmtMap
                (match analysis.ExtractedData with
                  | some extracted => mergeContinue state.Data extracted
                  | none => state.Data)
              ++ ". NO repitas preguntas. NO pidas teléfono. Sé breve.")
            message (joinHistory (state.ConversationHistory ++ ["Usuario: " ++ message]))).2
          ≠ none →
        reply = "Por favor, dime tu " ++ first ++ ":" ∧
        state'.ConversationHistory = state.ConversationHistory ++ ["Usuario: " ++ message]) := by
  have hget := GetUserState_of_some userStates userID env.nowCreate state hstate
  have hpm := ProcessMessage_of_not_saved env userStates message userID userName analysis
    (by rw [hget]; exact hsaved) (by rw [hget]; simpa [withUserTurn, hsched] using hanalysis)
  rw [hget] at hpm
  simp only [hsched, Bool.not_true, Bool.and_false, Bool.false_eq_true, if_false, if_true]
    at hpm
  have hdata := continueAppointmentFlow_data env (withUserTurn env state message) analysis
    message userID userName
  have hmiss' : getMissingData
      (continueAppointmentFlow env (withUserTurn env state message) analysis message userID
        userName).2.Data = first :: rest := by
    rw [hdata]; exact hmiss
  obtain ⟨hok, herr⟩ := continueAppointmentFlow_history env (withUserTurn env state message)
    analysis message userID userName first rest hmiss'
  rw [hdata] at hok herr
  refine ⟨_, _, _, hpm, setUserState_self _ _ _, ?_, ?_⟩
  · intro hc
    rw [hok hc]
    simp [withUserTurn]
  · intro hc
    exact herr hc

theorem offlineBookedStore_reachable : Reachable offlineBookedStore :=
  afterMessage_reachable _ _ _ _ _ _ trivial ReachableVia.init

set_option maxRecDepth 8000 in
/-- C11. A user asks for an appointment and then sends a name, in a world without Gemini, so
that `Chat` fails. Before the second message the session is in Booking, not saved, with the
five slots missing and the history `["Usuario: quiero una cita"]`, a state reached from the
empty store. `ProcessMessage` returns
the reply `Por favor, dime tu nombre:` and leaves the history with the user turn appended and
no assistant turn: the reply that was returned is not recorded. -/
theorem booking_reply_not_recorded_when_chat_fails :
    Reachable offlineBookedStore ∧
    (offlineBookedStore "5215550009").map
        (fun state => (state.IsScheduling, state.AppointmentSaved, getMissingData state.Data,
          state.ConversationHistory))
      = some (true, false, ["nombre", "servicio", "barbero", "fecha", "hora"],
          ["Usuario: quiero una cita"]) ∧
    (Chat (offlineEnv 1010)
        ("Pide ÚNICAMENTE el siguiente dato: nombre. Datos ya recopilados: map[]"
          ++ ". NO repitas preguntas. NO pidas teléfono. Sé breve.")
        "Ana" (joinHistory ["Usuario: quiero una cita", "Usuario: Ana"])).2
      = some "Gemini no inicializado" ∧
    (ProcessMessage (offlineEnv 1010) offlineBookedStore "Ana" "5215550009" "Ana").map
        (fun r => (r.1, (r.2 "5215550009").map fun state =>
          (getMissingData state.Data, state.ConversationHistory)))
      = some ("Por favor, dime tu nombre:",
          some (["nombre", "servicio", "barbero", "fecha", "hora"],
            ["Usuario: quiero una cita", "Usuario: Ana"])) ∧
    (ProcessMessage (offlineEnv 1010) offlineBookedStore "Ana" "5215550009" "Ana").map
        (fun r => (r.2 "5215550009").map fun state => state.ConversationHistory)
      ≠ some (some (["Usuario: quiero una cita"]
          ++ ["Usuario: " ++ "Ana", "Asistente: " ++ "Por favor, dime tu nombre:"])) := by
  refine ⟨offlineBookedStore_reachable, rfl, rfl, rfl, ?_⟩
  have h : (ProcessMessage (offlineEnv 1010) offlineBookedStore "Ana" "5215550009" "Ana").map
      (fun r => (r.2 "5215550009").map fun state => state.ConversationHistory)
      = some (some ["Usuario: quiero una cita", "Usuario: Ana"]) := rfl
  rw [h]
  decide

end AtomicBot
